import Mathlib

/-!
A shallow embedding of the bounded graph-traversal and subgraph-assembly engine of the
hash-graph store: temporal intervals, the four-component resolve-depth vector, the
Postgres-backed edge resolvers, the layered traversal drivers for entities, entity
types and property types, the query entry points, and the entity write path.

UUIDs, base URLs and timestamps are used by the code only as opaque identifiers and
ordered time points; they are modelled as `Nat`.  A Postgres `tstzrange` on the
variable axis is a right-bounded interval `[lower, upper)` with an optionally
unbounded upper end.
-/


/-- A right-bounded temporal interval `[lower, upper)`; `upper = none` is unbounded. -/
structure TemporalInterval where
  lower : Nat
  upper : Option Nat
  deriving Repr, DecidableEq

/-- Postgres `@>` on a range and a time point. -/
def TemporalInterval.containsT (i : TemporalInterval) (t : Nat) : Bool :=
  decide (i.lower ≤ t) && (match i.upper with | none => true | some u => decide (t < u))

/-- A `[lower, upper)` range is empty iff `upper ≤ lower`. -/
def TemporalInterval.isEmpty (i : TemporalInterval) : Bool :=
  match i.upper with
  | none => false
  | some u => decide (u ≤ i.lower)

/-- Minimum of two optionally-unbounded upper endpoints. -/
def minUpper : Option Nat → Option Nat → Option Nat
  | none, b => b
  | some a, none => some a
  | some a, some b => some (min a b)

/-- Postgres `*` on ranges: the intersection. -/
def TemporalInterval.intersect (a b : TemporalInterval) : TemporalInterval :=
  ⟨max a.lower b.lower, minUpper a.upper b.upper⟩

/-- Postgres `&&` on ranges: the ranges share at least one point. -/
def TemporalInterval.overlaps (a b : TemporalInterval) : Bool :=
  !(a.intersect b).isEmpty

/-- Order on optionally-unbounded upper endpoints (`none` is `+∞`). -/
def upperLe : Option Nat → Option Nat → Bool
  | _, none => true
  | none, some _ => false
  | some a, some b => decide (a ≤ b)

/-- `a` is contained in `b` (an empty interval is contained in everything). -/
def TemporalInterval.subsetB (a b : TemporalInterval) : Bool :=
  a.isEmpty || (decide (b.lower ≤ a.lower) && upperLe a.upper b.upper)

/-- `GraphResolveDepths`: the four per-target-kind resolve-depth counters
(`shared/subgraph/depths.rs`). -/
structure GraphResolveDepths where
  data_type_resolve_depth : Nat
  property_type_resolve_depth : Nat
  entity_type_resolve_depth : Nat
  entity_resolve_depth : Nat
  deriving Repr, DecidableEq

/-- `GraphResolveDepths::zeroed`. -/
def GraphResolveDepths.zeroed : GraphResolveDepths :=
  ⟨0, 0, 0, 0⟩

/-- Total remaining budget of a depth vector (used as a termination measure). -/
def GraphResolveDepths.depthSum (v : GraphResolveDepths) : Nat :=
  v.data_type_resolve_depth + v.property_type_resolve_depth
    + v.entity_type_resolve_depth + v.entity_resolve_depth

/-- `OntologyEdgeKind` (`shared/subgraph/edges/kind.rs`). -/
inductive OntologyEdgeKind where
  | inheritsFrom
  | constrainsValuesOn
  | constrainsPropertiesOn
  | constrainsLinksOn
  | constrainsLinkDestinationsOn
  deriving Repr, DecidableEq

/-- `KnowledgeGraphEdgeKind` as used by the traversal code in
`store/postgres/knowledge/entity.rs`. -/
inductive KnowledgeGraphEdgeKind where
  | hasLeftEntity
  | hasRightEntity
  deriving Repr, DecidableEq

/-- `SharedEdgeKind`. -/
inductive SharedEdgeKind where
  | isOfType
  deriving Repr, DecidableEq

/-- `EdgeDirection`. -/
inductive EdgeDirection where
  | outgoing
  | incoming
  deriving Repr, DecidableEq

/-- Modelled from the spec: `GraphResolveDepths::decrement_depth_for_edge` for ontology
edge kinds is not under `src/`.  Spec §3/§4.1: each edge kind consumes the counter of
its target kind; the decrement is allowed iff that counter is positive, and only that
counter is decremented by one.  The direction does not change which counter is used. -/
def decrement_depth_for_ontology_edge (kind : OntologyEdgeKind) (_direction : EdgeDirection)
    (v : GraphResolveDepths) : Option GraphResolveDepths :=
  match kind with
  | .inheritsFrom | .constrainsLinksOn | .constrainsLinkDestinationsOn =>
    if v.entity_type_resolve_depth = 0 then none
    else some { v with entity_type_resolve_depth := v.entity_type_resolve_depth - 1 }
  | .constrainsPropertiesOn =>
    if v.property_type_resolve_depth = 0 then none
    else some { v with property_type_resolve_depth := v.property_type_resolve_depth - 1 }
  | .constrainsValuesOn =>
    if v.data_type_resolve_depth = 0 then none
    else some { v with data_type_resolve_depth := v.data_type_resolve_depth - 1 }

/-- Modelled from the spec: the `decrement_depth_for_edge` overload for the shared
`IsOfType` edge, which consumes the entity-type counter (spec §3 and §9). -/
def decrement_depth_for_shared_edge (_kind : SharedEdgeKind) (_direction : EdgeDirection)
    (v : GraphResolveDepths) : Option GraphResolveDepths :=
  if v.entity_type_resolve_depth = 0 then none
  else some { v with entity_type_resolve_depth := v.entity_type_resolve_depth - 1 }

/-- Modelled from the spec: the `decrement_depth_for_edge` overload for knowledge-graph
edges, which consumes the entity counter in both directions (spec §3, §4.4). -/
def decrement_depth_for_knowledge_edge (_kind : KnowledgeGraphEdgeKind)
    (_direction : EdgeDirection) (v : GraphResolveDepths) : Option GraphResolveDepths :=
  if v.entity_resolve_depth = 0 then none
  else some { v with entity_resolve_depth := v.entity_resolve_depth - 1 }

/-- `EntityId`: owner id plus entity uuid. -/
structure EntityId where
  owned_by_id : Nat
  entity_uuid : Nat
  deriving Repr, DecidableEq

/-- `EntityVertexId`: an entity id plus the revision timestamp. -/
structure EntityVertexId where
  base_id : EntityId
  revision_id : Nat
  deriving Repr, DecidableEq

/-- Identifier of an ontology-type vertex: `(base_url, revision)`.  Base URLs are
modelled as `Nat`. -/
structure OntologyTypeVertexId where
  base_id : Nat
  revision_id : Nat
  deriving Repr, DecidableEq

/-- `VersionedUrl`: a base URL plus a version. -/
structure VersionedUrlM where
  base_url : Nat
  version : Nat
  deriving Repr, DecidableEq

/-- `EntityTypeVertexId::from(VersionedUrl)` and the analogous conversions. -/
def OntologyTypeVertexId.fromUrl (u : VersionedUrlM) : OntologyTypeVertexId :=
  ⟨u.base_url, u.version⟩

/-- `EntityIdWithInterval`: an edge target naming an entity across a validity interval. -/
structure EntityIdWithInterval where
  entity_id : EntityId
  interval : TemporalInterval
  deriving Repr, DecidableEq

/-- `TimeAxis`. -/
inductive TimeAxis where
  | decisionTime
  | transactionTime
  deriving Repr, DecidableEq

/-- Resolved `QueryTemporalAxes`: the variable axis selector, the pinned timestamp on
the other axis, and the variable interval. -/
structure QueryTemporalAxesM where
  variable_axis : TimeAxis
  pinned : Nat
  interval : TemporalInterval
  deriving Repr, DecidableEq

/-- `QueryTemporalAxes::variable_interval`. -/
def QueryTemporalAxesM.variable_interval (a : QueryTemporalAxesM) : TemporalInterval :=
  a.interval

/-- `QueryTemporalAxes::from_variable_time_axis`. -/
def QueryTemporalAxesM.from_variable_time_axis (axis : TimeAxis) (pinned : Nat)
    (interval : TemporalInterval) : QueryTemporalAxesM :=
  ⟨axis, pinned, interval⟩

/-- One row of `entity_temporal_metadata`. -/
structure EntityTemporalRow where
  owned_by_id : Nat
  entity_uuid : Nat
  entity_edition_id : Nat
  decision_time : TemporalInterval
  transaction_time : TemporalInterval
  deriving Repr, DecidableEq

/-- The column named by `variable_axis_column` for a given variable axis. -/
def EntityTemporalRow.variableColumn (r : EntityTemporalRow) : TimeAxis → TemporalInterval
  | .decisionTime => r.decision_time
  | .transactionTime => r.transaction_time

/-- The column named by `pinned_axis_column`: the axis opposite the variable one
(`match variable_axis` in `read_shared_edges` / `read_entity_edges`). -/
def EntityTemporalRow.pinnedColumn (r : EntityTemporalRow) : TimeAxis → TemporalInterval
  | .decisionTime => r.transaction_time
  | .transactionTime => r.decision_time

/-- A row of a property-type reference table
(`property_type_constrains_values_on` / `property_type_constrains_properties_on`):
source property type, target type, with the ontology ids of both. -/
structure PTEdgeRow where
  source_id : Nat
  source : OntologyTypeVertexId
  target_id : Nat
  target : OntologyTypeVertexId
  deriving Repr, DecidableEq

/-- A payload record of an entity, as returned by root selection
(`Entity` restricted to what the traversal observes): its id and the lower bounds of
its two temporal intervals. -/
structure EntityRecord where
  entity_id : EntityId
  decision_lower : Nat
  transaction_lower : Nat
  deriving Repr, DecidableEq

/-- `Entity::vertex_id(time_axis)`. -/
def EntityRecord.vertexId (e : EntityRecord) : TimeAxis → EntityVertexId
  | .decisionTime => ⟨e.entity_id, e.decision_lower⟩
  | .transactionTime => ⟨e.entity_id, e.transaction_lower⟩

/-- An ontology-type payload record; the traversal observes only its vertex id. -/
structure OntologyRecord where
  vertex_id : OntologyTypeVertexId
  deriving Repr, DecidableEq

/-- The backing relational store, restricted to the relations the traversal and write
path read.  `failing := true` models the backing store answering every query with a
transport error. -/
structure StoreModel where
  failing : Bool
  entity_temporal_metadata : List EntityTemporalRow
  entity_is_of_type : List (Nat × VersionedUrlM)
  entity_has_left_entity : List (EntityId × EntityId)
  entity_has_right_entity : List (EntityId × EntityId)
  entity_type_inherits_from : List (OntologyTypeVertexId × OntologyTypeVertexId)
  entity_type_constrains_properties_on : List (OntologyTypeVertexId × OntologyTypeVertexId)
  entity_type_constrains_links_on : List (OntologyTypeVertexId × OntologyTypeVertexId)
  entity_type_constrains_link_destinations_on :
    List (OntologyTypeVertexId × OntologyTypeVertexId)
  property_type_constrains_values_on : List PTEdgeRow
  property_type_constrains_properties_on : List PTEdgeRow
  entity_editions : List (Nat × EntityRecord)
  deriving Repr, DecidableEq

/-- `QueryError` (a unit struct in `store/error.rs`). -/
inductive QueryErrorM where
  | queryError
  deriving Repr, DecidableEq

/-- Pair every element of a list with its 0-based ordinal, modelling
`WITH ORDINALITY` (the Rust code subtracts 1 from the 1-based SQL ordinal). -/
def enumIdx (l : List α) : List (Nat × α) :=
  (List.range l.length).zip l

theorem mem_enumIdx_lt {l : List α} {i : Nat} {a : α} (h : (i, a) ∈ enumIdx l) :
    i < l.length := by
  have := (List.of_mem_zip h).1
  simpa using this

theorem getD_mem {l : List α} {i : Nat} (h : i < l.length) (d : α) : l.getD i d ∈ l := by
  rw [List.getD_eq_getElem l d h]
  exact List.get_mem l _ _

theorem mem_enumIdx_getD {l : List α} {i : Nat} {a : α} (h : (i, a) ∈ enumIdx l) (d : α) :
    l.getD i d = a := by
  induction l generalizing i with
  | nil => simp [enumIdx] at h
  | cons x xs ih =>
    simp only [enumIdx, List.length_cons, List.range_succ_eq_map, List.zip_cons_cons,
      List.mem_cons] at h
    rcases h with h | h
    · cases h; rfl
    · rw [List.zip_map_left] at h
      rcases List.mem_map.1 h with ⟨⟨j, b⟩, hmem, heq⟩
      cases heq
      simpa using ih hmem

/-- One entry of the batched `unnest(...) WITH ORDINALITY` parallel filter arrays:
the owner id, entity uuid and variable interval of one admitted source. -/
structure EntityFilterEntry where
  owned_by_id : Nat
  entity_uuid : Nat
  interval : TemporalInterval
  deriving Repr, DecidableEq

/-- A result row of `read_shared_edges`. -/
structure SharedEdgeRow where
  source_vertex_id : EntityVertexId
  target_url : VersionedUrlM
  idx : Nat
  deriving Repr, DecidableEq

/-- `read_shared_edges` (`store/postgres/knowledge/entity.rs`): one batched query over
`entity_is_of_type` joined with `entity_temporal_metadata` (pinned-axis containment of
the pinned timestamp), the unnested filter arrays (owner and uuid equality, interval
overlap) and `ontology_ids`; the source revision is the lower bound of the source's
variable-axis column. -/
def read_shared_edges (s : StoreModel) (filters : List EntityFilterEntry)
    (pinned : Nat) (variable_axis : TimeAxis) :
    Except QueryErrorM (List SharedEdgeRow) :=
  if s.failing then .error .queryError else
  .ok <|
    s.entity_is_of_type.flatMap fun iot =>
      s.entity_temporal_metadata.flatMap fun m =>
        if m.entity_edition_id = iot.1 && (m.pinnedColumn variable_axis).containsT pinned then
          (enumIdx filters).filterMap fun p =>
            if p.2.owned_by_id = m.owned_by_id && p.2.entity_uuid = m.entity_uuid
                && p.2.interval.overlaps (m.variableColumn variable_axis) then
              some ⟨⟨⟨m.owned_by_id, m.entity_uuid⟩, (m.variableColumn variable_axis).lower⟩,
                iot.2, p.1⟩
            else none
        else []

/-- A result row of `read_entity_edges`, in the order of the SQL projection. -/
structure EntityEdgeRow where
  source_vertex_id : EntityVertexId
  target_vertex_id : EntityVertexId
  target_id : EntityIdWithInterval
  target_edition_id : Nat
  interval : TemporalInterval
  idx : Nat
  deriving Repr, DecidableEq

/-- `read_entity_edges`: the batched knowledge-graph edge query.  An `Incoming`
direction swaps which side of the reference table is the source and which the target.
Faithful to the projection of the listing: both the source revision (row index 2) and
the target revision (row index 5) are `lower(source.variable_axis_column)`; the
`target_id` interval is `source * target`; the propagated interval is
`source * target * filter.interval`. -/
def read_entity_edges (s : StoreModel) (filters : List EntityFilterEntry)
    (pinned : Nat) (variable_axis : TimeAxis)
    (reference_table : List (EntityId × EntityId)) (edge_direction : EdgeDirection) :
    Except QueryErrorM (List EntityEdgeRow) :=
  if s.failing then .error .queryError else
  let table := if edge_direction = EdgeDirection.incoming
    then reference_table.map (fun p => (p.2, p.1)) else reference_table
  .ok <|
    table.flatMap fun link =>
      s.entity_temporal_metadata.flatMap fun src =>
        if src.owned_by_id = link.1.owned_by_id && src.entity_uuid = link.1.entity_uuid
            && (src.pinnedColumn variable_axis).containsT pinned then
          s.entity_temporal_metadata.flatMap fun tgt =>
            if tgt.owned_by_id = link.2.owned_by_id && tgt.entity_uuid = link.2.entity_uuid
                && (tgt.pinnedColumn variable_axis).containsT pinned
                && (tgt.variableColumn variable_axis).overlaps
                  (src.variableColumn variable_axis) then
              (enumIdx filters).filterMap fun p =>
                if p.2.owned_by_id = src.owned_by_id && p.2.entity_uuid = src.entity_uuid
                    && p.2.interval.overlaps (src.variableColumn variable_axis)
                    && p.2.interval.overlaps (tgt.variableColumn variable_axis) then
                  some ⟨⟨⟨src.owned_by_id, src.entity_uuid⟩,
                      (src.variableColumn variable_axis).lower⟩,
                    ⟨⟨tgt.owned_by_id, tgt.entity_uuid⟩,
                      (src.variableColumn variable_axis).lower⟩,
                    ⟨⟨tgt.owned_by_id, tgt.entity_uuid⟩,
                      (src.variableColumn variable_axis).intersect
                        (tgt.variableColumn variable_axis)⟩,
                    tgt.entity_edition_id,
                    ((src.variableColumn variable_axis).intersect
                      (tgt.variableColumn variable_axis)).intersect p.2.interval,
                    p.1⟩
                else none
            else []
        else []

/-- Modelled from the spec: `read_ontology_edges` is not under `src/`; §6: given
batched `(base_url, revision)` sources and a reference table, it returns one
`(source, target, ordinal)` row per reference-table row matching each source. -/
def read_ontology_edges (s : StoreModel) (sources : List OntologyTypeVertexId)
    (reference_table : List (OntologyTypeVertexId × OntologyTypeVertexId)) :
    Except QueryErrorM (List (OntologyTypeVertexId × OntologyTypeVertexId × Nat)) :=
  if s.failing then .error .queryError else
  .ok <|
    (enumIdx sources).flatMap fun p =>
      reference_table.filterMap fun e =>
        if e.1 = p.2 then some (e.1, e.2, p.1) else none

/-- A row of the two compiled `SelectCompiler` queries of `traverse_property_types`:
the selected record's ontology id and vertex id, plus the vertex id selected through
the edge path of the filter. -/
structure PTQueryResultRow where
  row_id : Nat
  row_vertex_id : OntologyTypeVertexId
  edge_vertex_id : OntologyTypeVertexId
  deriving Repr, DecidableEq

/-- The compiled `SelectCompiler::<DataTypeWithMetadata>` query of
`traverse_property_types`: data-type rows having a `ConstrainsValuesOn` edge whose
property-type end is in the filter list; one row per such edge. -/
def data_type_constrains_values_query (s : StoreModel)
    (urls : List OntologyTypeVertexId) : Except QueryErrorM (List PTQueryResultRow) :=
  if s.failing then .error .queryError else
  .ok <| s.property_type_constrains_values_on.filterMap fun e =>
    if e.source ∈ urls then some ⟨e.target_id, e.target, e.source⟩ else none

/-- The compiled `SelectCompiler::<PropertyTypeWithMetadata>` query of
`traverse_property_types`: property-type rows having an *outgoing*
`ConstrainsPropertiesOn` edge whose endpoint is in the filter list; the endpoint's
vertex id is bound to the `source_property_type_*` selections in the code. -/
def property_type_constrains_properties_query (s : StoreModel)
    (urls : List OntologyTypeVertexId) : Except QueryErrorM (List PTQueryResultRow) :=
  if s.failing then .error .queryError else
  .ok <| s.property_type_constrains_properties_on.filterMap fun e =>
    if e.target ∈ urls then some ⟨e.source_id, e.source, e.target⟩ else none

/-- `GraphElementVertexId`: a vertex key of any of the four stored kinds. -/
inductive GraphElementVertexId where
  | entityV (id : EntityVertexId)
  | entityTypeV (id : OntologyTypeVertexId)
  | propertyTypeV (id : OntologyTypeVertexId)
  | dataTypeV (id : OntologyTypeVertexId)
  deriving Repr, DecidableEq

/-- A subgraph edge kind of any family. -/
inductive GraphEdgeKind where
  | ontology (k : OntologyEdgeKind)
  | knowledgeGraph (k : KnowledgeGraphEdgeKind)
  | shared (k : SharedEdgeKind)
  deriving Repr, DecidableEq

/-- An edge endpoint: a vertex id, or an entity id with a validity interval. -/
inductive EdgeEndpoint where
  | vertexTarget (id : GraphElementVertexId)
  | entityTarget (id : EntityIdWithInterval)
  deriving Repr, DecidableEq

structure SubgraphEdge where
  source : GraphElementVertexId
  kind : GraphEdgeKind
  direction : EdgeDirection
  target : EdgeEndpoint
  deriving Repr, DecidableEq

/-- Set-style insertion into a list: a no-op when the element is present. -/
def insertOnce [DecidableEq α] (l : List α) (a : α) : List α :=
  if a ∈ l then l else l ++ [a]

/-- The `Subgraph` accumulator: the depth vector and resolved axes of the query, one
keyed vertex collection per kind, the edge list, and the root set. -/
structure SubgraphM where
  depths : GraphResolveDepths
  temporal_axes : QueryTemporalAxesM
  entities : List (EntityVertexId × EntityRecord)
  entity_types : List (OntologyTypeVertexId × OntologyRecord)
  property_types : List (OntologyTypeVertexId × OntologyRecord)
  data_types : List (OntologyTypeVertexId × OntologyRecord)
  edges : List SubgraphEdge
  roots : List GraphElementVertexId
  deriving Repr, DecidableEq

/-- Modelled from the spec: `Subgraph::insert_edge` is not under `src/`; §4.3: it is
idempotent on `(source, kind, direction, target)` and touches only the edge list. -/
def SubgraphM.insert_edge (g : SubgraphM) (source : GraphElementVertexId)
    (kind : GraphEdgeKind) (direction : EdgeDirection) (target : EdgeEndpoint) :
    SubgraphM :=
  { g with edges := insertOnce g.edges ⟨source, kind, direction, target⟩ }

/-- Modelled from the spec: the `TraversalContext` type is not under `src/`; §2/§4.6:
it records the vertex ids scheduled for payload loading.  Its fields follow the uses
in the traversal listings: sets (`insert`) of entity edition ids, entity-type vertex
ids and property-type vertex ids, and vectors (`push`) of property-type and data-type
ontology ids; data-type vertex ids are recorded by the data-type traversal. -/
structure TraversalContext where
  entity_edition_ids : List Nat
  entity_type_ids : List OntologyTypeVertexId
  property_type_ids : List OntologyTypeVertexId
  property_type_ontology_ids : List Nat
  data_type_ontology_ids : List Nat
  data_type_ids : List OntologyTypeVertexId
  deriving Repr, DecidableEq

/-- `TraversalContext::default`. -/
def TraversalContext.empty : TraversalContext :=
  ⟨[], [], [], [], [], []⟩

/-- One frontier entry of the entity traversal:
`(EntityVertexId, GraphResolveDepths, QueryTemporalAxes)`. -/
structure EntityQueueEntry where
  vertex_id : EntityVertexId
  depths : GraphResolveDepths
  axes : QueryTemporalAxesM
  deriving Repr, DecidableEq

/-- One frontier entry of the entity-type traversal:
`(EntityTypeVertexId, GraphResolveDepths)`. -/
structure OntologyQueueEntry where
  vertex_id : OntologyTypeVertexId
  depths : GraphResolveDepths
  deriving Repr, DecidableEq

/-- One frontier entry of the property-type traversal:
`(PropertyTypeVertexId, GraphResolveDepths, QueryTemporalAxes)`. -/
structure PTQueueEntry where
  vertex_id : OntologyTypeVertexId
  depths : GraphResolveDepths
  axes : QueryTemporalAxesM
  deriving Repr, DecidableEq

/-- The observable outcome of a driver function: success, an `Err(QueryError)` return,
a Rust panic (an `unwrap` of a failed query), or exhaustion of the explicit iteration
budget (proved unreachable for the budgets the entry points use). -/
inductive DriverResult (σ : Type) where
  | ok (st : σ)
  | queryFailed
  | panicked
  | outOfFuel
  deriving Repr, DecidableEq

/-- The state of the `traverse_entities` loop: the current frontier, the accumulated
entity-type queue (the `entity_type_queue` vector declared before the loop), the
traversal context and the subgraph. -/
structure EntityTraversalState where
  entity_queue : List EntityQueueEntry
  entity_type_queue : List OntologyQueueEntry
  ctx : TraversalContext
  subgraph : SubgraphM
  deriving Repr, DecidableEq

/-- The state of the `traverse_entity_types` loop. -/
structure ETTraversalState where
  entity_type_queue : List OntologyQueueEntry
  property_type_queue : List OntologyQueueEntry
  ctx : TraversalContext
  subgraph : SubgraphM
  deriving Repr, DecidableEq

/-- The state of the `traverse_property_types` loop. -/
structure PTTraversalState where
  property_type_queue : List PTQueueEntry
  data_type_queue : List PTQueueEntry
  ctx : TraversalContext
  subgraph : SubgraphM
  deriving Repr, DecidableEq

/-- The admitted `IsOfType` group of one entity layer: the sources whose depth vector
admits the decrement, in frontier order, each paired with its decremented vector (the
code pushes onto parallel arrays; the pairing keeps the positional correspondence). -/
def entitySharedAdmitted (q : List EntityQueueEntry) :
    List (EntityFilterEntry × GraphResolveDepths) :=
  q.filterMap fun e =>
    (decrement_depth_for_shared_edge .isOfType .outgoing e.depths).map fun nd =>
      (⟨e.vertex_id.base_id.owned_by_id, e.vertex_id.base_id.entity_uuid,
        e.axes.variable_interval⟩, nd)

/-- The admitted group of one knowledge-graph `(kind, direction)` pair. -/
def entityKnowledgeAdmitted (kind : KnowledgeGraphEdgeKind) (direction : EdgeDirection)
    (q : List EntityQueueEntry) : List (EntityFilterEntry × GraphResolveDepths) :=
  q.filterMap fun e =>
    (decrement_depth_for_knowledge_edge kind direction e.depths).map fun nd =>
      (⟨e.vertex_id.base_id.owned_by_id, e.vertex_id.base_id.entity_uuid,
        e.axes.variable_interval⟩, nd)

/-- Per-row processing of `read_shared_edges` results in `traverse_entities`: insert
the target entity type into the traversal context, insert the `IsOfType` edge, and
enqueue the target with the decremented vector at the row's ordinal index. -/
def processSharedRows (depths : List GraphResolveDepths) (rows : List SharedEdgeRow)
    (acc : TraversalContext × SubgraphM × List OntologyQueueEntry) :
    TraversalContext × SubgraphM × List OntologyQueueEntry :=
  rows.foldl (fun acc r =>
    let target := OntologyTypeVertexId.fromUrl r.target_url
    ({ acc.1 with entity_type_ids := insertOnce acc.1.entity_type_ids target },
     acc.2.1.insert_edge (.entityV r.source_vertex_id) (.shared .isOfType) .outgoing
       (.vertexTarget (.entityTypeV target)),
     acc.2.2 ++ [⟨target, depths.getD r.idx GraphResolveDepths.zeroed⟩])) acc

/-- Per-row processing of `read_entity_edges` results in `traverse_entities`. -/
def processEntityRows (kind : KnowledgeGraphEdgeKind) (direction : EdgeDirection)
    (depths : List GraphResolveDepths) (pinned : Nat) (variable_axis : TimeAxis)
    (rows : List EntityEdgeRow)
    (acc : TraversalContext × SubgraphM × List EntityQueueEntry) :
    TraversalContext × SubgraphM × List EntityQueueEntry :=
  rows.foldl (fun acc r =>
    ({ acc.1 with
        entity_edition_ids := insertOnce acc.1.entity_edition_ids r.target_edition_id },
     acc.2.1.insert_edge (.entityV r.source_vertex_id) (.knowledgeGraph kind) direction
       (.entityTarget r.target_id),
     acc.2.2 ++ [⟨r.target_vertex_id, depths.getD r.idx GraphResolveDepths.zeroed,
       QueryTemporalAxesM.from_variable_time_axis variable_axis pinned r.interval⟩])) acc

/-- The fixed iteration order of the `entity_edges` array in `traverse_entities`. -/
def entityEdgeCombos : List (KnowledgeGraphEdgeKind × EdgeDirection) :=
  [(.hasLeftEntity, .incoming), (.hasRightEntity, .incoming),
   (.hasLeftEntity, .outgoing), (.hasRightEntity, .outgoing)]

/-- The reference table of a knowledge-graph edge kind. -/
def entityEdgeTable (s : StoreModel) :
    KnowledgeGraphEdgeKind → List (EntityId × EntityId)
  | .hasLeftEntity => s.entity_has_left_entity
  | .hasRightEntity => s.entity_has_right_entity

/-- A fold over a list that stops at the first `Except.error`. -/
def exceptFold (f : β → α → Except ε α) : List β → α → Except ε α
  | [], a => .ok a
  | b :: bs, a =>
    match f b a with
    | .error e => .error e
    | .ok a2 => exceptFold f bs a2

/-- Processing of one knowledge-graph `(kind, direction)` group of one entity layer:
skipped when the group is empty (the `HashMap` holds no entry), otherwise one batched
`read_entity_edges` call whose failure aborts the layer. -/
def entityLayerCombo (s : StoreModel) (pinned : Nat) (variable_axis : TimeAxis)
    (queue0 : List EntityQueueEntry) (kd : KnowledgeGraphEdgeKind × EdgeDirection)
    (acc : TraversalContext × SubgraphM × List EntityQueueEntry) :
    Except QueryErrorM (TraversalContext × SubgraphM × List EntityQueueEntry) :=
  let g := entityKnowledgeAdmitted kd.1 kd.2 queue0
  if g.isEmpty then .ok acc
  else
    match read_entity_edges s (g.map Prod.fst) pinned variable_axis
        (entityEdgeTable s kd.1) kd.2 with
    | .error e => .error e
    | .ok rows =>
      .ok (processEntityRows kd.1 kd.2 (g.map Prod.snd) pinned variable_axis rows acc)

/-- One iteration of the `while !entity_queue.is_empty()` loop of `traverse_entities`:
drain the frontier into per-group parallel arrays, call `read_shared_edges` for the
`IsOfType` group and `read_entity_edges` for each knowledge-graph group, insert the
returned edges and enqueue the targets. -/
def entityLayer (s : StoreModel) (pinned : Nat) (variable_axis : TimeAxis)
    (st : EntityTraversalState) : DriverResult EntityTraversalState :=
  let sharedG := entitySharedAdmitted st.entity_queue
  let afterShared :
      Except QueryErrorM (TraversalContext × SubgraphM × List OntologyQueueEntry) :=
    if sharedG.isEmpty then .ok (st.ctx, st.subgraph, st.entity_type_queue)
    else
      match read_shared_edges s (sharedG.map Prod.fst) pinned variable_axis with
      | .error e => .error e
      | .ok rows => .ok (processSharedRows (sharedG.map Prod.snd) rows
          (st.ctx, st.subgraph, st.entity_type_queue))
  match afterShared with
  | .error _ => .queryFailed
  | .ok (ctx1, sg1, etq1) =>
    match exceptFold (fun kd acc => entityLayerCombo s pinned variable_axis
        st.entity_queue kd acc) entityEdgeCombos (ctx1, sg1, []) with
    | .error _ => .queryFailed
    | .ok (ctx2, sg2, q2) => .ok ⟨q2, etq1, ctx2, sg2⟩

/-- The admitted group for one ontology edge kind in `traverse_entity_types`. -/
def etAdmitted (kind : OntologyEdgeKind) (q : List OntologyQueueEntry) :
    List OntologyQueueEntry :=
  q.filterMap fun e =>
    (decrement_depth_for_ontology_edge kind .outgoing e.depths).map fun nd =>
      ⟨e.vertex_id, nd⟩

/-- Per-row processing of `read_ontology_edges` results in `traverse_entity_types`:
`ConstrainsPropertiesOn` records the target as a property type, the other kinds as an
entity type; the target is enqueued with the decremented vector at the ordinal index. -/
def processOntologyRows (kind : OntologyEdgeKind) (targetIsPropertyType : Bool)
    (depths : List GraphResolveDepths)
    (rows : List (OntologyTypeVertexId × OntologyTypeVertexId × Nat))
    (acc : TraversalContext × SubgraphM × List OntologyQueueEntry) :
    TraversalContext × SubgraphM × List OntologyQueueEntry :=
  rows.foldl (fun acc r =>
    ((if targetIsPropertyType then
        { acc.1 with property_type_ids := insertOnce acc.1.property_type_ids r.2.1 }
      else { acc.1 with entity_type_ids := insertOnce acc.1.entity_type_ids r.2.1 }),
     acc.2.1.insert_edge (.entityTypeV r.1) (.ontology kind) .outgoing
       (.vertexTarget (if targetIsPropertyType then .propertyTypeV r.2.1
        else .entityTypeV r.2.1)),
     acc.2.2 ++ [⟨r.2.1, depths.getD r.2.2 GraphResolveDepths.zeroed⟩])) acc

/-- The reference table of an ontology edge kind used by `traverse_entity_types`. -/
def etTable (s : StoreModel) :
    OntologyEdgeKind → List (OntologyTypeVertexId × OntologyTypeVertexId)
  | .inheritsFrom => s.entity_type_inherits_from
  | .constrainsPropertiesOn => s.entity_type_constrains_properties_on
  | .constrainsLinksOn => s.entity_type_constrains_links_on
  | .constrainsLinkDestinationsOn => s.entity_type_constrains_link_destinations_on
  | .constrainsValuesOn => []

/-- Processing of one ontology edge kind of one entity-type layer: skipped when the
admitted group is empty, otherwise one batched `read_ontology_edges` call. -/
def etLayerKind (s : StoreModel) (queue0 : List OntologyQueueEntry)
    (kind : OntologyEdgeKind)
    (acc : TraversalContext × SubgraphM × List OntologyQueueEntry) :
    Except QueryErrorM (TraversalContext × SubgraphM × List OntologyQueueEntry) :=
  let g := etAdmitted kind queue0
  if g.isEmpty then .ok acc
  else
    match read_ontology_edges s (g.map (fun e => e.vertex_id)) (etTable s kind) with
    | .error e => .error e
    | .ok rows =>
      .ok (processOntologyRows kind (kind = OntologyEdgeKind.constrainsPropertiesOn)
        (g.map (fun e => e.depths)) rows acc)

/-- One iteration of the `while` loop of `traverse_entity_types`: the
`ConstrainsPropertiesOn` group extends the property-type queue, then `InheritsFrom`,
`ConstrainsLinksOn` and `ConstrainsLinkDestinationsOn` extend the next frontier. -/
def entityTypeLayer (s : StoreModel) (st : ETTraversalState) :
    DriverResult ETTraversalState :=
  match etLayerKind s st.entity_type_queue .constrainsPropertiesOn
      (st.ctx, st.subgraph, st.property_type_queue) with
  | .error _ => .queryFailed
  | .ok (ctx1, sg1, ptq1) =>
    match exceptFold (fun kind acc => etLayerKind s st.entity_type_queue kind acc)
        [OntologyEdgeKind.inheritsFrom, OntologyEdgeKind.constrainsLinksOn,
          OntologyEdgeKind.constrainsLinkDestinationsOn] (ctx1, sg1, []) with
    | .error _ => .queryFailed
    | .ok (ctx2, sg2, q2) => .ok ⟨q2, ptq1, ctx2, sg2⟩

/-- The admitted group for one ontology edge kind in `traverse_property_types`. -/
def ptAdmitted (kind : OntologyEdgeKind) (q : List PTQueueEntry) : List PTQueueEntry :=
  q.filterMap fun e =>
    (decrement_depth_for_ontology_edge kind .outgoing e.depths).map fun nd =>
      ⟨e.vertex_id, nd, e.axes⟩

/-- Per-pair processing of the first (`ConstrainsValuesOn`) query of
`traverse_property_types`: the rows are paired with the depth list *positionally* via
`zip`, not through an ordinal column. -/
def processPTValueRows
    (pairs : List (PTQueryResultRow × GraphResolveDepths × QueryTemporalAxesM))
    (acc : TraversalContext × SubgraphM × List PTQueueEntry) :
    TraversalContext × SubgraphM × List PTQueueEntry :=
  pairs.foldl (fun acc p =>
    ({ acc.1 with
        data_type_ontology_ids := acc.1.data_type_ontology_ids ++ [p.1.row_id] },
     acc.2.1.insert_edge (.propertyTypeV p.1.edge_vertex_id)
       (.ontology .constrainsValuesOn) .outgoing
       (.vertexTarget (.dataTypeV p.1.row_vertex_id)),
     acc.2.2 ++ [⟨p.1.row_vertex_id, p.2.1, p.2.2⟩])) acc

/-- Per-pair processing of the second (`ConstrainsPropertiesOn`) query of
`traverse_property_types`, also paired positionally via `zip`. -/
def processPTPropRows
    (pairs : List (PTQueryResultRow × GraphResolveDepths × QueryTemporalAxesM))
    (acc : TraversalContext × SubgraphM × List PTQueueEntry) :
    TraversalContext × SubgraphM × List PTQueueEntry :=
  pairs.foldl (fun acc p =>
    ({ acc.1 with
        property_type_ontology_ids := acc.1.property_type_ontology_ids ++ [p.1.row_id] },
     acc.2.1.insert_edge (.propertyTypeV p.1.edge_vertex_id)
       (.ontology .constrainsPropertiesOn) .outgoing
       (.vertexTarget (.propertyTypeV p.1.row_vertex_id)),
     acc.2.2 ++ [⟨p.1.row_vertex_id, p.2.1, p.2.2⟩])) acc

/-- One iteration of the `while` loop of `traverse_property_types`.  Faithful to the
listing: both queries run unconditionally and their results are `unwrap`ped, so a
failed query is a panic, not an `Err(QueryError)`; the second query filters by the
`constrains_values_on_queue` even though it zips `constrains_properties_on_depths`. -/
def propertyTypeLayer (s : StoreModel) (st : PTTraversalState) :
    DriverResult PTTraversalState :=
  let valuesAdmitted := ptAdmitted .constrainsValuesOn st.property_type_queue
  let propsAdmitted := ptAdmitted .constrainsPropertiesOn st.property_type_queue
  match data_type_constrains_values_query s
      (valuesAdmitted.map (fun e => e.vertex_id)) with
  | .error _ => .panicked
  | .ok rows =>
    let acc1 := processPTValueRows
      (rows.zip (valuesAdmitted.map fun e => (e.depths, e.axes)))
      (st.ctx, st.subgraph, st.data_type_queue)
    match property_type_constrains_properties_query s
        (valuesAdmitted.map (fun e => e.vertex_id)) with
    | .error _ => .panicked
    | .ok rows2 =>
      let acc2 := processPTPropRows
        (rows2.zip (propsAdmitted.map fun e => (e.depths, e.axes)))
        (acc1.1, acc1.2.1, [])
      .ok ⟨acc2.2.2, acc1.2.2, acc2.1, acc2.2.1⟩

/-- The `while !queue.is_empty()` driver loop with an explicit iteration budget. -/
def fuelLoop (queueOf : σ → List α) (step : σ → DriverResult σ) :
    Nat → σ → DriverResult σ
  | 0, st => if (queueOf st).isEmpty then .ok st else .outOfFuel
  | n + 1, st =>
    if (queueOf st).isEmpty then .ok st
    else
      match step st with
      | .ok st2 => fuelLoop queueOf step n st2
      | .queryFailed => .queryFailed
      | .panicked => .panicked
      | .outOfFuel => .outOfFuel

/-- Maximum of a list of naturals (0 for the empty list). -/
def listMaxN : List Nat → Nat
  | [] => 0
  | a :: l => max a (listMaxN l)

/-- Iteration budget sufficient for the entity loop: one more than the largest
remaining depth budget on the frontier. -/
def entityBound (q : List EntityQueueEntry) : Nat :=
  listMaxN (q.map fun e => e.depths.depthSum) + 1

/-- Iteration budget sufficient for the entity-type loop. -/
def ontologyBound (q : List OntologyQueueEntry) : Nat :=
  listMaxN (q.map fun e => e.depths.depthSum) + 1

/-- Iteration budget sufficient for the property-type loop. -/
def ptBound (q : List PTQueueEntry) : Nat :=
  listMaxN (q.map fun e => e.depths.depthSum) + 1

/-- Modelled from the spec: `traverse_data_types` is not under `src/`; §4.4: data-type
frontier expansion produces no further edges; it records the queued vertex ids for
payload loading. -/
def traverse_data_types (queue : List PTQueueEntry) (ctx : TraversalContext) :
    TraversalContext :=
  queue.foldl (fun c e => { c with data_type_ids := insertOnce c.data_type_ids e.vertex_id })
    ctx

/-- `traverse_property_types`: the fixpoint loop over property-type frontiers followed
by the data-type traversal of the accumulated `data_type_queue`. -/
def traverse_property_types (s : StoreModel) (queue : List PTQueueEntry)
    (ctx : TraversalContext) (sg : SubgraphM) :
    DriverResult (TraversalContext × SubgraphM) :=
  match fuelLoop (fun st => st.property_type_queue) (propertyTypeLayer s)
      (ptBound queue) ⟨queue, [], ctx, sg⟩ with
  | .ok st => .ok (traverse_data_types st.data_type_queue st.ctx, st.subgraph)
  | .queryFailed => .queryFailed
  | .panicked => .panicked
  | .outOfFuel => .outOfFuel

/-- `traverse_entity_types`: the fixpoint loop over entity-type frontiers followed by
the property-type traversal of the accumulated `property_type_queue`.  The listing
hands over the accumulated pair queue where `traverse_property_types` expects triples;
the temporal component is supplied from the query's resolved axes. -/
def traverse_entity_types (s : StoreModel) (queue : List OntologyQueueEntry)
    (ctx : TraversalContext) (sg : SubgraphM) :
    DriverResult (TraversalContext × SubgraphM) :=
  match fuelLoop (fun st => st.entity_type_queue) (entityTypeLayer s)
      (ontologyBound queue) ⟨queue, [], ctx, sg⟩ with
  | .ok st => traverse_property_types s
      (st.property_type_queue.map fun e => ⟨e.vertex_id, e.depths, sg.temporal_axes⟩)
      st.ctx st.subgraph
  | .queryFailed => .queryFailed
  | .panicked => .panicked
  | .outOfFuel => .outOfFuel

/-- `traverse_entities`: reads the pinned timestamp and variable axis from the
subgraph's resolved axes, runs the fixpoint loop over entity frontiers, then the
entity-type traversal of the accumulated `entity_type_queue`. -/
def traverse_entities (s : StoreModel) (queue : List EntityQueueEntry)
    (ctx : TraversalContext) (sg : SubgraphM) :
    DriverResult (TraversalContext × SubgraphM) :=
  match fuelLoop (fun st => st.entity_queue)
      (entityLayer s sg.temporal_axes.pinned sg.temporal_axes.variable_axis)
      (entityBound queue) ⟨queue, [], ctx, sg⟩ with
  | .ok st => traverse_entity_types s st.entity_type_queue st.ctx st.subgraph
  | .queryFailed => .queryFailed
  | .panicked => .panicked
  | .outOfFuel => .outOfFuel

/-- Lookup of an entity edition id in the `entity_editions` relation. -/
def lookupEdition (s : StoreModel) (e : Nat) : Option EntityRecord :=
  (s.entity_editions.find? (fun p => p.1 =  e)).map Prod.snd

/-- Idempotent vertex installation into a keyed vertex collection: a second insert
with the same key is a no-op (spec §4.3). -/
def insertIfAbsent [DecidableEq κ] (m : List (κ × ω)) (k : κ) (v : ω) : List (κ × ω) :=
  if m.any (fun p => p.1 = k) then m else m ++ [(k, v)]

/-- Modelled from the spec: `TraversalContext::load_vertices` is not under `src/`;
§4.6: after the fixpoint, one batched read per vertex kind fetches the payloads of the
ids recorded in the context and installs them as vertices; it discovers no edges and
leaves the roots untouched. -/
def load_vertices (s : StoreModel) (ctx : TraversalContext) (sg : SubgraphM) :
    Except QueryErrorM SubgraphM :=
  if s.failing then .error .queryError else
  .ok { sg with
    entities := ctx.entity_edition_ids.foldl (fun m e =>
      match lookupEdition s e with
      | some er => insertIfAbsent m (er.vertexId sg.temporal_axes.variable_axis) er
      | none => m) sg.entities,
    entity_types := ctx.entity_type_ids.foldl (fun m k => insertIfAbsent m k ⟨k⟩)
      sg.entity_types,
    property_types := ctx.property_type_ids.foldl (fun m k => insertIfAbsent m k ⟨k⟩)
      sg.property_types,
    data_types := ctx.data_type_ids.foldl (fun m k => insertIfAbsent m k ⟨k⟩)
      sg.data_types }

/-- Key-replacing insertion into a keyed vertex map, modelling collection of the root
payloads into a `HashMap` keyed by vertex id (a later payload with the same vertex id
replaces the earlier one). -/
def assocReplace [DecidableEq κ] (m : List (κ × ω)) (k : κ) (v : ω) : List (κ × ω) :=
  if m.any (fun p => p.1 = k) then m.map (fun p => if p.1 = k then (k, v) else p)
  else m ++ [(k, v)]

/-- `read_vec` roots collected into the entity vertex map of `get_entity`. -/
def collectEntities (roots : List EntityRecord) (axis : TimeAxis) :
    List (EntityVertexId × EntityRecord) :=
  roots.foldl (fun m e => assocReplace m (e.vertexId axis) e) []

/-- `get_entity` (`store/postgres/knowledge/entity.rs`): root selection (modelled as
the given payload list — the filter is opaque and compiled by the store; a failing
store fails the root read), root installation as vertices and roots, seeding of the
frontier with the query's depth vector and resolved axes, traversal, and vertex
loading. -/
def get_entity (s : StoreModel) (roots : List EntityRecord)
    (graph_resolve_depths : GraphResolveDepths) (axes : QueryTemporalAxesM) :
    DriverResult SubgraphM :=
  if s.failing then .queryFailed else
  let entities := collectEntities roots axes.variable_axis
  let sg : SubgraphM :=
    { depths := graph_resolve_depths, temporal_axes := axes, entities := entities,
      entity_types := [], property_types := [], data_types := [], edges := [],
      roots := entities.map fun p => .entityV p.1 }
  match traverse_entities s
      (entities.map fun p => ⟨p.1, graph_resolve_depths, axes⟩)
      TraversalContext.empty sg with
  | .ok (ctx, sg2) =>
    match load_vertices s ctx sg2 with
    | .ok sg3 => .ok sg3
    | .error _ => .queryFailed
  | .queryFailed => .queryFailed
  | .panicked => .panicked
  | .outOfFuel => .outOfFuel

/-- `read_vec` roots collected into the entity-type vertex map of `get_entity_type`. -/
def collectOntology (roots : List OntologyRecord) :
    List (OntologyTypeVertexId × OntologyRecord) :=
  roots.foldl (fun m e => assocReplace m e.vertex_id e) []

/-- `get_entity_type` (`store/postgres/ontology/entity_type.rs`): root selection, root
installation, traversal seeded with `(id, depths)` pairs, and vertex loading. -/
def get_entity_type (s : StoreModel) (roots : List OntologyRecord)
    (graph_resolve_depths : GraphResolveDepths) (axes : QueryTemporalAxesM) :
    DriverResult SubgraphM :=
  if s.failing then .queryFailed else
  let entity_types := collectOntology roots
  let sg : SubgraphM :=
    { depths := graph_resolve_depths, temporal_axes := axes, entities := [],
      entity_types := entity_types, property_types := [], data_types := [], edges := [],
      roots := entity_types.map fun p => .entityTypeV p.1 }
  match traverse_entity_types s
      (entity_types.map fun p => ⟨p.1, graph_resolve_depths⟩)
      TraversalContext.empty sg with
  | .ok (ctx, sg2) =>
    match load_vertices s ctx sg2 with
    | .ok sg3 => .ok sg3
    | .error _ => .queryFailed
  | .queryFailed => .queryFailed
  | .panicked => .panicked
  | .outOfFuel => .outOfFuel

/-- Failure modes of a stored write function, as discriminated by `SqlState`: the
restriction-violation signal versus any other error. -/
inductive UpdateFailure where
  | restrictViolation
  | otherFailure
  deriving Repr, DecidableEq

/-- Which dedicated error context, if any, a surfaced `UpdateError` report carries. -/
inductive UpdateErrorKind where
  | raceConditionOnUpdate
  | entityDoesNotExist
  | plainUpdate
  deriving Repr, DecidableEq

/-- A row returned by the stored `create_entity` / `update_entity` functions:
`(entity_edition_id, decision_time, transaction_time)`. -/
structure EditionRow where
  entity_edition_id : Nat
  decision_time : TemporalInterval
  transaction_time : TemporalInterval
  deriving Repr, DecidableEq

instance {ε α : Type} [DecidableEq ε] [DecidableEq α] : DecidableEq (Except ε α) :=
  fun x y =>
    match x, y with
    | .ok a, .ok b =>
      if h : a = b then .isTrue (by rw [h])
      else .isFalse (by intro c; cases c; exact h rfl)
    | .ok _, .error _ => .isFalse (by intro c; cases c)
    | .error _, .ok _ => .isFalse (by intro c; cases c)
    | .error e, .error f =>
      if h : e = f then .isTrue (by rw [h])
      else .isFalse (by intro c; cases c; exact h rfl)

/-- The backing store's responses to the statements `update_entity` issues, in order:
the ontology-id lookup, the `SELECT EXISTS` probe (on success Postgres returns exactly
one row holding a boolean), the `update_entity` function call, and the commit. -/
structure UpdateStoreResponses where
  ontology_id_result : Except Unit Nat
  exists_query_result : Except Unit Bool
  update_row_result : Except UpdateFailure EditionRow
  commit_result : Except Unit Unit
  deriving Repr, DecidableEq

/-- `EntityMetadata` as returned by the entity write path. -/
structure EntityMetadataM where
  entity_id : EntityId
  edition_id : Nat
  decision_time : TemporalInterval
  transaction_time : TemporalInterval
  entity_type_id : VersionedUrlM
  record_created_by_id : Nat
  archived : Bool
  deriving Repr, DecidableEq

/-- `update_entity` (`store/postgres/knowledge/entity.rs`): the ontology-id lookup,
the transaction, the `SELECT EXISTS` existence probe checked via `query_opt(..)
.is_none()`, the `update_entity` call whose `RESTRICT_VIOLATION` SqlState is turned
into `RaceConditionOnUpdate` and any other failure into a plain `UpdateError`, and the
commit.  Returns the surfaced result and whether the transaction committed. -/
def update_entity (resp : UpdateStoreResponses) (entity_id : EntityId)
    (record_created_by_id : Nat) (archived : Bool) (entity_type_id : VersionedUrlM) :
    Except UpdateErrorKind EntityMetadataM × Bool :=
  match resp.ontology_id_result with
  | .error _ => (.error .plainUpdate, false)
  | .ok _ =>
    match resp.exists_query_result with
    | .error _ => (.error .plainUpdate, false)
    | .ok b =>
      let row_opt : Option Bool := some b
      if row_opt.isNone then (.error .entityDoesNotExist, false)
      else
        match resp.update_row_result with
        | .error .restrictViolation => (.error .raceConditionOnUpdate, false)
        | .error .otherFailure => (.error .plainUpdate, false)
        | .ok row =>
          match resp.commit_result with
          | .error _ => (.error .plainUpdate, false)
          | .ok _ =>
            (.ok ⟨entity_id, row.entity_edition_id, row.decision_time,
              row.transaction_time, entity_type_id, record_created_by_id, archived⟩,
             true)

/-- The backing store's responses to the statements `create_entity` issues: the
ontology-id lookup and the `create_entity` function call. -/
structure CreateStoreResponses where
  ontology_id_result : Except Unit Nat
  create_row_result : Except Unit EditionRow
  deriving Repr, DecidableEq

/-- `create_entity` (`store/postgres/knowledge/entity.rs`): the entity id takes the
supplied owner id and the supplied entity uuid, or a freshly generated one
(`Uuid::new_v4`, modelled as the oracle argument `fresh_uuid`) when none is supplied;
on success the returned metadata echoes the entity type id, the acting record creator
and the archived flag. -/
def create_entity (resp : CreateStoreResponses) (owned_by_id : Nat)
    (entity_uuid : Option Nat) (fresh_uuid : Nat) (record_created_by_id : Nat)
    (archived : Bool) (entity_type_id : VersionedUrlM) :
    Except Unit EntityMetadataM :=
  let entity_id : EntityId := ⟨owned_by_id, entity_uuid.getD fresh_uuid⟩
  match resp.ontology_id_result with
  | .error _ => .error ()
  | .ok _ =>
    match resp.create_row_result with
    | .error _ => .error ()
    | .ok row =>
      .ok ⟨entity_id, row.entity_edition_id, row.decision_time, row.transaction_time,
        entity_type_id, record_created_by_id, archived⟩

/-- The default entry used to state positional lookups into the filter arrays. -/
def defaultFilterEntry : EntityFilterEntry :=
  ⟨0, 0, ⟨0, none⟩⟩

/-- The entity-type queue entries one entity layer appends for the `IsOfType` group:
one per resolver row, with the decremented vector at the row's ordinal index.  The
traversal context plays no part. -/
def sharedAdds (s : StoreModel) (pinned : Nat) (variable_axis : TimeAxis)
    (queue0 : List EntityQueueEntry) : List OntologyQueueEntry :=
  let g := entitySharedAdmitted queue0
  if g.isEmpty then []
  else
    match read_shared_edges s (g.map Prod.fst) pinned variable_axis with
    | .error _ => []
    | .ok rows => rows.map fun r =>
        ⟨OntologyTypeVertexId.fromUrl r.target_url,
          (g.map Prod.snd).getD r.idx GraphResolveDepths.zeroed⟩

/-- The entity-queue entries one entity layer appends for one knowledge-graph
`(kind, direction)` group: one per resolver row. -/
def entityComboAdds (s : StoreModel) (pinned : Nat) (variable_axis : TimeAxis)
    (queue0 : List EntityQueueEntry) (kd : KnowledgeGraphEdgeKind × EdgeDirection) :
    List EntityQueueEntry :=
  let g := entityKnowledgeAdmitted kd.1 kd.2 queue0
  if g.isEmpty then []
  else
    match read_entity_edges s (g.map Prod.fst) pinned variable_axis
        (entityEdgeTable s kd.1) kd.2 with
    | .error _ => []
    | .ok rows => rows.map fun r =>
        ⟨r.target_vertex_id, (g.map Prod.snd).getD r.idx GraphResolveDepths.zeroed,
          QueryTemporalAxesM.from_variable_time_axis variable_axis pinned r.interval⟩

/-- The queue entries one entity-type layer appends for one ontology edge kind: one
per resolver row, with the decremented vector at the row's ordinal index. -/
def etKindAdds (s : StoreModel) (queue0 : List OntologyQueueEntry)
    (kind : OntologyEdgeKind) : List OntologyQueueEntry :=
  let g := etAdmitted kind queue0
  if g.isEmpty then []
  else
    match read_ontology_edges s (g.map (fun e => e.vertex_id)) (etTable s kind) with
    | .error _ => []
    | .ok rows => rows.map fun r =>
        ⟨r.2.1, (g.map (fun e => e.depths)).getD r.2.2 GraphResolveDepths.zeroed⟩

/-- The data-type queue entries one property-type layer appends: the query rows are
`zip`ped positionally with the admitted `ConstrainsValuesOn` depth list. -/
def ptValueAdds (s : StoreModel) (queue0 : List PTQueueEntry) : List PTQueueEntry :=
  let g := ptAdmitted .constrainsValuesOn queue0
  match data_type_constrains_values_query s (g.map (fun e => e.vertex_id)) with
  | .error _ => []
  | .ok rows => (rows.zip (g.map fun e => (e.depths, e.axes))).map fun p =>
      ⟨p.1.row_vertex_id, p.2.1, p.2.2⟩

/-- The property-type queue entries one property-type layer appends: the second query
(filtered by the `ConstrainsValuesOn` url list) is `zip`ped positionally with the
admitted `ConstrainsPropertiesOn` depth list. -/
def ptPropAdds (s : StoreModel) (queue0 : List PTQueueEntry) : List PTQueueEntry :=
  let g := ptAdmitted .constrainsValuesOn queue0
  let g2 := ptAdmitted .constrainsPropertiesOn queue0
  match property_type_constrains_properties_query s (g.map (fun e => e.vertex_id)) with
  | .error _ => []
  | .ok rows => (rows.zip (g2.map fun e => (e.depths, e.axes))).map fun p =>
      ⟨p.1.row_vertex_id, p.2.1, p.2.2⟩

/-- The vertex collections and roots of a subgraph (everything except the depth
vector, the axes and the edge list); the traversal layers leave these unchanged. -/
def SubgraphM.vertexData (g : SubgraphM) :
    List (EntityVertexId × EntityRecord) ×
    List (OntologyTypeVertexId × OntologyRecord) ×
    List (OntologyTypeVertexId × OntologyRecord) ×
    List (OntologyTypeVertexId × OntologyRecord) × List GraphElementVertexId :=
  (g.entities, g.entity_types, g.property_types, g.data_types, g.roots)

/-! ### Concrete fixtures used by the witnesses and counterexamples -/

/-- A resolved temporal-axes value: decision time variable, pinned at 0, interval
`[0, ∞)`. -/
def axW : QueryTemporalAxesM :=
  ⟨.decisionTime, 0, ⟨0, none⟩⟩

/-- An empty subgraph under `axW`. -/
def sgW : SubgraphM :=
  ⟨GraphResolveDepths.zeroed, axW, [], [], [], [], [], []⟩

/-- A store with every relation empty. -/
def emptyStore : StoreModel :=
  ⟨false, [], [], [], [], [], [], [], [], [], [], []⟩

/-- A store whose every query fails with a transport error. -/
def failingStore : StoreModel :=
  ⟨true, [], [], [], [], [], [], [], [], [], [], []⟩

/-- Property types `P1 := (1,1)` and `P2 := (2,1)`, data types `D1 := (11,1)`,
`D2 := (12,1)`, `D3 := (13,1)`: `P1 -ConstrainsValuesOn-> D1, D2` and
`P2 -ConstrainsValuesOn-> D3`. -/
def cexValuesStore : StoreModel :=
  { emptyStore with property_type_constrains_values_on :=
      [⟨101, ⟨1, 1⟩, 201, ⟨11, 1⟩⟩, ⟨101, ⟨1, 1⟩, 202, ⟨12, 1⟩⟩,
       ⟨102, ⟨2, 1⟩, 203, ⟨13, 1⟩⟩] }

/-- A property-type frontier holding `P1` with data-type depth 2 and `P2` with
data-type depth 5. -/
def cexPTState : PTTraversalState :=
  ⟨[⟨⟨1, 1⟩, ⟨2, 0, 0, 0⟩, axW⟩, ⟨⟨2, 1⟩, ⟨5, 0, 0, 0⟩, axW⟩], [],
    TraversalContext.empty, sgW⟩

/-- Entity types `A1 := (21,1)`, `A2 := (22,1)`, `T := (23,1)`:
`A1 -InheritsFrom-> T` and `A2 -InheritsFrom-> T`. -/
def cexInheritsStore : StoreModel :=
  { emptyStore with entity_type_inherits_from := [(⟨21, 1⟩, ⟨23, 1⟩), (⟨22, 1⟩, ⟨23, 1⟩)] }

/-- A traversal context in which `T := (23,1)` is already scheduled. -/
def cexETCtx : TraversalContext :=
  { TraversalContext.empty with entity_type_ids := [⟨23, 1⟩] }

/-- An entity-type frontier holding `A1` and `A2` at entity-type depth 1, with `T`
already scheduled in the context. -/
def cexETState : ETTraversalState :=
  ⟨[⟨⟨21, 1⟩, ⟨0, 0, 1, 0⟩⟩, ⟨⟨22, 1⟩, ⟨0, 0, 1, 0⟩⟩], [], cexETCtx, sgW⟩

/-- Entities `(1,1)` (metadata interval `[0, ∞)` on both axes, edition 10) and `(1,2)`
(decision time `[5, ∞)`, transaction time `[0, ∞)`, edition 20), linked
`(1,1) -HasLeftEntity-> (1,2)`. -/
def cexEntityStore : StoreModel :=
  { emptyStore with
      entity_temporal_metadata :=
        [⟨1, 1, 10, ⟨0, none⟩, ⟨0, none⟩⟩, ⟨1, 2, 20, ⟨5, none⟩, ⟨0, none⟩⟩],
      entity_has_left_entity := [(⟨1, 1⟩, ⟨1, 2⟩)] }

/-- A property-type frontier with one admitted `ConstrainsValuesOn` source. -/
def ptStateForFail : PTTraversalState :=
  ⟨[⟨⟨1, 1⟩, ⟨1, 0, 0, 0⟩, axW⟩], [], TraversalContext.empty, sgW⟩

/-- An entity frontier with one source admitting the `IsOfType` decrement. -/
def entStateForFail : EntityTraversalState :=
  ⟨[⟨⟨⟨1, 1⟩, 0⟩, ⟨0, 0, 1, 0⟩, axW⟩], [], TraversalContext.empty, sgW⟩

/-- A root entity payload. -/
def rootW : EntityRecord :=
  ⟨⟨7, 8⟩, 3, 4⟩

/-- A root entity-type payload naming `A1 := (21,1)`. -/
def ontRootW : OntologyRecord :=
  ⟨⟨21, 1⟩⟩

/-- The subgraph `get_entity emptyStore [rootW] zeroed axW` returns. -/
def c9SubgraphW : SubgraphM :=
  { depths := GraphResolveDepths.zeroed, temporal_axes := axW,
    entities := [(⟨⟨7, 8⟩, 3⟩, rootW)], entity_types := [], property_types := [],
    data_types := [], edges := [], roots := [.entityV ⟨⟨7, 8⟩, 3⟩] }

/-! ### Interval algebra lemmas -/

theorem intersect_subsetB_right (a b : TemporalInterval) :
    (a.intersect b).subsetB b = true := by
  cases a with
  | mk al au =>
    cases b with
    | mk bl bu =>
      cases au <;> cases bu <;>
        simp [TemporalInterval.intersect, TemporalInterval.subsetB,
          TemporalInterval.isEmpty, minUpper, upperLe]

theorem subsetB_trans {a b c : TemporalInterval} (h1 : a.subsetB b = true)
    (h2 : b.subsetB c = true) : a.subsetB c = true := by
  cases a with
  | mk al au =>
    cases b with
    | mk bl bu =>
      cases c with
      | mk cl cu =>
        cases au <;> cases bu <;> cases cu <;>
          simp [TemporalInterval.subsetB, TemporalInterval.isEmpty, upperLe]
            at h1 h2 ⊢ <;> omega

/-! ### Depth decrement measure lemmas -/

theorem depthSum_decrement_ontology {kind : OntologyEdgeKind} {d : EdgeDirection}
    {v v2 : GraphResolveDepths}
    (h : decrement_depth_for_ontology_edge kind d v = some v2) :
    v2.depthSum < v.depthSum := by
  cases kind <;> simp only [decrement_depth_for_ontology_edge] at h <;> split at h
  all_goals try exact Option.noConfusion h
  all_goals injection h with h2
  all_goals subst h2
  all_goals simp only [GraphResolveDepths.depthSum]
  all_goals omega

theorem depthSum_decrement_shared {kind : SharedEdgeKind} {d : EdgeDirection}
    {v v2 : GraphResolveDepths}
    (h : decrement_depth_for_shared_edge kind d v = some v2) :
    v2.depthSum < v.depthSum := by
  simp only [decrement_depth_for_shared_edge] at h
  split at h
  · exact Option.noConfusion h
  · injection h with h2; subst h2
    simp only [GraphResolveDepths.depthSum]; omega

theorem depthSum_decrement_knowledge {kind : KnowledgeGraphEdgeKind} {d : EdgeDirection}
    {v v2 : GraphResolveDepths}
    (h : decrement_depth_for_knowledge_edge kind d v = some v2) :
    v2.depthSum < v.depthSum := by
  simp only [decrement_depth_for_knowledge_edge] at h
  split at h
  · exact Option.noConfusion h
  · injection h with h2; subst h2
    simp only [GraphResolveDepths.depthSum]; omega

/-! ### Generic loop machinery -/

theorem listMaxN_le_of_mem {l : List Nat} {a : Nat} (h : a ∈ l) : a ≤ listMaxN l := by
  induction l with
  | nil => cases h
  | cons b bs ih =>
    rcases List.mem_cons.1 h with rfl | h2
    · exact Nat.le_max_left _ _
    · exact le_trans (ih h2) (Nat.le_max_right _ _)

theorem fuelLoop_preserve {σ α : Type} (queueOf : σ → List α) (step : σ → DriverResult σ)
    (P : σ → Prop) (hstep : ∀ st st2, step st = .ok st2 → P st → P st2) :
    ∀ n st st2, fuelLoop queueOf step n st = .ok st2 → P st → P st2 := by
  intro n
  induction n with
  | zero =>
    intro st st2 h hP
    simp only [fuelLoop] at h
    split at h
    · injection h with h2; subst h2; exact hP
    · cases h
  | succ n ih =>
    intro st st2 h hP
    simp only [fuelLoop] at h
    split at h
    · injection h with h2; subst h2; exact hP
    · cases hs : step st with
      | ok stm => rw [hs] at h; exact ih stm st2 h (hstep st stm hs hP)
      | queryFailed => rw [hs] at h; cases h
      | panicked => rw [hs] at h; cases h
      | outOfFuel => rw [hs] at h; cases h

theorem fuelLoop_ok_queue_empty {σ α : Type} (queueOf : σ → List α)
    (step : σ → DriverResult σ) :
    ∀ n st st2, fuelLoop queueOf step n st = .ok st2 → queueOf st2 = [] := by
  intro n
  induction n with
  | zero =>
    intro st st2 h
    simp only [fuelLoop] at h
    split at h
    · next he => injection h with h2; subst h2; exact List.isEmpty_iff.1 he
    · cases h
  | succ n ih =>
    intro st st2 h
    simp only [fuelLoop] at h
    split at h
    · next he => injection h with h2; subst h2; exact List.isEmpty_iff.1 he
    · cases hs : step st with
      | ok stm => rw [hs] at h; exact ih stm st2 h
      | queryFailed => rw [hs] at h; cases h
      | panicked => rw [hs] at h; cases h
      | outOfFuel => rw [hs] at h; cases h

theorem fuelLoop_no_outOfFuel {σ α : Type} (queueOf : σ → List α)
    (step : σ → DriverResult σ) (measure : α → Nat)
    (hne : ∀ st, step st ≠ .outOfFuel)
    (hstep : ∀ st st2, step st = .ok st2 →
      ∀ b ∈ queueOf st2, ∃ a ∈ queueOf st, measure b < measure a) :
    ∀ n st, (∀ a ∈ queueOf st, measure a < n) →
      fuelLoop queueOf step n st ≠ .outOfFuel := by
  intro n
  induction n with
  | zero =>
    intro st hlt
    simp only [fuelLoop]
    split
    · simp
    · next hq =>
      exfalso
      have hne2 : queueOf st ≠ [] := by
        intro hnil
        rw [hnil] at hq
        simp at hq
      rcases List.exists_mem_of_ne_nil _ hne2 with ⟨a, ha⟩
      exact absurd (hlt a ha) (Nat.not_lt_zero _)
  | succ n ih =>
    intro st hlt
    simp only [fuelLoop]
    split
    · simp
    · cases hs : step st with
      | ok stm =>
        exact ih stm (fun b hb => by
          rcases hstep st stm hs b hb with ⟨a, ha, hab⟩
          exact lt_of_lt_of_le hab (Nat.lt_succ_iff.1 (hlt a ha)))
      | queryFailed => simp
      | panicked => simp
      | outOfFuel => exact absurd hs (hne st)

theorem exceptFold_preserve {β α ε : Type} {f : β → α → Except ε α} (P : α → Prop)
    (hf : ∀ b a a2, f b a = .ok a2 → P a → P a2) :
    ∀ l a a2, exceptFold f l a = .ok a2 → P a → P a2 := by
  intro l
  induction l with
  | nil =>
    intro a a2 h hP
    simp only [exceptFold] at h
    injection h with h2; subst h2; exact hP
  | cons b bs ih =>
    intro a a2 h hP
    simp only [exceptFold] at h
    cases hs : f b a with
    | error e => rw [hs] at h; cases h
    | ok amid => rw [hs] at h; exact ih amid a2 h (hf b a amid hs hP)

theorem exceptFold_proj {β α γ ε : Type} {f : β → α → Except ε α} (π : α → List γ)
    (add : β → List γ) (hf : ∀ b a a2, f b a = .ok a2 → π a2 = π a ++ add b) :
    ∀ l a a2, exceptFold f l a = .ok a2 → π a2 = π a ++ l.flatMap add := by
  intro l
  induction l with
  | nil =>
    intro a a2 h
    simp only [exceptFold] at h
    injection h with h2; subst h2; simp
  | cons b bs ih =>
    intro a a2 h
    simp only [exceptFold] at h
    cases hs : f b a with
    | error e => rw [hs] at h; cases h
    | ok amid =>
      rw [hs] at h
      rw [ih amid a2 h, hf b a amid hs]
      simp

/-! ### Resolver row lemmas -/

theorem read_shared_edges_row {s : StoreModel} {filters : List EntityFilterEntry}
    {pinned : Nat} {axis : TimeAxis} {rows : List SharedEdgeRow}
    (h : read_shared_edges s filters pinned axis = .ok rows) :
    ∀ r ∈ rows, r.idx < filters.length := by
  intro r hr
  simp only [read_shared_edges] at h
  split at h
  · cases h
  · injection h with h2
    subst h2
    simp only [List.mem_flatMap] at hr
    obtain ⟨iot, hiot, hr⟩ := hr
    obtain ⟨m, hm, hr⟩ := hr
    split at hr
    · simp only [List.mem_filterMap] at hr
      obtain ⟨p, hp, heq⟩ := hr
      obtain ⟨i, f⟩ := p
      split at heq
      · injection heq with heq2
        subst heq2
        exact mem_enumIdx_lt hp
      · cases heq
    · cases hr

theorem read_entity_edges_row {s : StoreModel} {filters : List EntityFilterEntry}
    {pinned : Nat} {axis : TimeAxis} {table : List (EntityId × EntityId)}
    {dir : EdgeDirection} {rows : List EntityEdgeRow}
    (h : read_entity_edges s filters pinned axis table dir = .ok rows) :
    ∀ r ∈ rows, r.idx < filters.length ∧
      r.target_vertex_id.revision_id = r.source_vertex_id.revision_id ∧
      r.interval.subsetB (filters.getD r.idx defaultFilterEntry).interval = true := by
  intro r hr
  simp only [read_entity_edges] at h
  split at h
  · cases h
  · injection h with h2
    subst h2
    simp only [List.mem_flatMap] at hr
    obtain ⟨link, hlink, hr⟩ := hr
    obtain ⟨src, hsrc, hr⟩ := hr
    split at hr
    · simp only [List.mem_flatMap] at hr
      obtain ⟨tgt, htgt, hr⟩ := hr
      split at hr
      · simp only [List.mem_filterMap] at hr
        obtain ⟨p, hp, heq⟩ := hr
        obtain ⟨i, f⟩ := p
        split at heq
        · injection heq with heq2
          subst heq2
          refine ⟨mem_enumIdx_lt hp, rfl, ?_⟩
          rw [mem_enumIdx_getD hp defaultFilterEntry]
          exact intersect_subsetB_right _ _
        · cases heq
      · cases hr
    · cases hr

theorem read_ontology_edges_row {s : StoreModel} {sources : List OntologyTypeVertexId}
    {table : List (OntologyTypeVertexId × OntologyTypeVertexId)}
    {rows : List (OntologyTypeVertexId × OntologyTypeVertexId × Nat)}
    (h : read_ontology_edges s sources table = .ok rows) :
    ∀ r ∈ rows, r.2.2 < sources.length := by
  intro r hr
  simp only [read_ontology_edges] at h
  split at h
  · cases h
  · injection h with h2
    subst h2
    simp only [List.mem_flatMap] at hr
    obtain ⟨p, hp, hr⟩ := hr
    obtain ⟨i, src⟩ := p
    simp only [List.mem_filterMap] at hr
    obtain ⟨e, he, heq⟩ := hr
    split at heq
    · injection heq with heq2
      subst heq2
      exact mem_enumIdx_lt hp
    · cases heq

/-! ### Row-processor characterizations -/

theorem insert_edge_vertexData (g : SubgraphM) (a : GraphElementVertexId)
    (k : GraphEdgeKind) (d : EdgeDirection) (t : EdgeEndpoint) :
    (g.insert_edge a k d t).vertexData = g.vertexData := rfl

theorem processSharedRows_queue (depths : List GraphResolveDepths)
    (rows : List SharedEdgeRow)
    (acc : TraversalContext × SubgraphM × List OntologyQueueEntry) :
    (processSharedRows depths rows acc).2.2 = acc.2.2 ++ rows.map (fun r =>
      (⟨OntologyTypeVertexId.fromUrl r.target_url,
        depths.getD r.idx GraphResolveDepths.zeroed⟩ : OntologyQueueEntry)) := by
  induction rows generalizing acc with
  | nil => simp [processSharedRows]
  | cons r rs ih =>
    simp only [processSharedRows, List.foldl_cons] at ih ⊢
    rw [ih]
    simp

theorem processSharedRows_vertexData (depths : List GraphResolveDepths)
    (rows : List SharedEdgeRow)
    (acc : TraversalContext × SubgraphM × List OntologyQueueEntry) :
    (processSharedRows depths rows acc).2.1.vertexData = acc.2.1.vertexData := by
  induction rows generalizing acc with
  | nil => simp [processSharedRows]
  | cons r rs ih =>
    simp only [processSharedRows, List.foldl_cons] at ih ⊢
    rw [ih]
    rfl

theorem processEntityRows_queue (kind : KnowledgeGraphEdgeKind) (direction : EdgeDirection)
    (depths : List GraphResolveDepths) (pinned : Nat) (axis : TimeAxis)
    (rows : List EntityEdgeRow)
    (acc : TraversalContext × SubgraphM × List EntityQueueEntry) :
    (processEntityRows kind direction depths pinned axis rows acc).2.2 =
      acc.2.2 ++ rows.map (fun r =>
        (⟨r.target_vertex_id, depths.getD r.idx GraphResolveDepths.zeroed,
          QueryTemporalAxesM.from_variable_time_axis axis pinned r.interval⟩ :
          EntityQueueEntry)) := by
  induction rows generalizing acc with
  | nil => simp [processEntityRows]
  | cons r rs ih =>
    simp only [processEntityRows, List.foldl_cons] at ih ⊢
    rw [ih]
    simp

theorem processEntityRows_vertexData (kind : KnowledgeGraphEdgeKind)
    (direction : EdgeDirection) (depths : List GraphResolveDepths) (pinned : Nat)
    (axis : TimeAxis) (rows : List EntityEdgeRow)
    (acc : TraversalContext × SubgraphM × List EntityQueueEntry) :
    (processEntityRows kind direction depths pinned axis rows acc).2.1.vertexData =
      acc.2.1.vertexData := by
  induction rows generalizing acc with
  | nil => simp [processEntityRows]
  | cons r rs ih =>
    simp only [processEntityRows, List.foldl_cons] at ih ⊢
    rw [ih]
    rfl

theorem processOntologyRows_queue (kind : OntologyEdgeKind) (tp : Bool)
    (depths : List GraphResolveDepths)
    (rows : List (OntologyTypeVertexId × OntologyTypeVertexId × Nat))
    (acc : TraversalContext × SubgraphM × List OntologyQueueEntry) :
    (processOntologyRows kind tp depths rows acc).2.2 = acc.2.2 ++ rows.map (fun r =>
      (⟨r.2.1, depths.getD r.2.2 GraphResolveDepths.zeroed⟩ : OntologyQueueEntry)) := by
  induction rows generalizing acc with
  | nil => simp [processOntologyRows]
  | cons r rs ih =>
    simp only [processOntologyRows, List.foldl_cons] at ih ⊢
    rw [ih]
    simp

theorem processOntologyRows_vertexData (kind : OntologyEdgeKind) (tp : Bool)
    (depths : List GraphResolveDepths)
    (rows : List (OntologyTypeVertexId × OntologyTypeVertexId × Nat))
    (acc : TraversalContext × SubgraphM × List OntologyQueueEntry) :
    (processOntologyRows kind tp depths rows acc).2.1.vertexData = acc.2.1.vertexData := by
  induction rows generalizing acc with
  | nil => simp [processOntologyRows]
  | cons r rs ih =>
    simp only [processOntologyRows, List.foldl_cons] at ih ⊢
    rw [ih]
    cases tp <;> rfl

theorem processPTValueRows_queue
    (pairs : List (PTQueryResultRow × GraphResolveDepths × QueryTemporalAxesM))
    (acc : TraversalContext × SubgraphM × List PTQueueEntry) :
    (processPTValueRows pairs acc).2.2 = acc.2.2 ++ pairs.map (fun p =>
      (⟨p.1.row_vertex_id, p.2.1, p.2.2⟩ : PTQueueEntry)) := by
  induction pairs generalizing acc with
  | nil => simp [processPTValueRows]
  | cons r rs ih =>
    simp only [processPTValueRows, List.foldl_cons] at ih ⊢
    rw [ih]
    simp

theorem processPTValueRows_vertexData
    (pairs : List (PTQueryResultRow × GraphResolveDepths × QueryTemporalAxesM))
    (acc : TraversalContext × SubgraphM × List PTQueueEntry) :
    (processPTValueRows pairs acc).2.1.vertexData = acc.2.1.vertexData := by
  induction pairs generalizing acc with
  | nil => simp [processPTValueRows]
  | cons r rs ih =>
    simp only [processPTValueRows, List.foldl_cons] at ih ⊢
    rw [ih]
    rfl

theorem processPTPropRows_queue
    (pairs : List (PTQueryResultRow × GraphResolveDepths × QueryTemporalAxesM))
    (acc : TraversalContext × SubgraphM × List PTQueueEntry) :
    (processPTPropRows pairs acc).2.2 = acc.2.2 ++ pairs.map (fun p =>
      (⟨p.1.row_vertex_id, p.2.1, p.2.2⟩ : PTQueueEntry)) := by
  induction pairs generalizing acc with
  | nil => simp [processPTPropRows]
  | cons r rs ih =>
    simp only [processPTPropRows, List.foldl_cons] at ih ⊢
    rw [ih]
    simp

theorem processPTPropRows_vertexData
    (pairs : List (PTQueryResultRow × GraphResolveDepths × QueryTemporalAxesM))
    (acc : TraversalContext × SubgraphM × List PTQueueEntry) :
    (processPTPropRows pairs acc).2.1.vertexData = acc.2.1.vertexData := by
  induction pairs generalizing acc with
  | nil => simp [processPTPropRows]
  | cons r rs ih =>
    simp only [processPTPropRows, List.foldl_cons] at ih ⊢
    rw [ih]
    rfl

/-! ### Layer characterizations -/

theorem entityLayerCombo_ok {s : StoreModel} {p : Nat} {a : TimeAxis}
    {q0 : List EntityQueueEntry} {kd : KnowledgeGraphEdgeKind × EdgeDirection}
    {acc acc2 : TraversalContext × SubgraphM × List EntityQueueEntry}
    (h : entityLayerCombo s p a q0 kd acc = .ok acc2) :
    acc2.2.2 = acc.2.2 ++ entityComboAdds s p a q0 kd ∧
    acc2.2.1.vertexData = acc.2.1.vertexData := by
  simp only [entityLayerCombo] at h
  simp only [entityComboAdds]
  split at h
  · next hemp =>
    injection h with h2
    subst h2
    rw [if_pos hemp]
    simp
  · next hemp =>
    rw [if_neg hemp]
    cases hread : read_entity_edges s ((entityKnowledgeAdmitted kd.1 kd.2 q0).map Prod.fst)
        p a (entityEdgeTable s kd.1) kd.2 with
    | error e =>
      rw [hread] at h
      cases h
    | ok rows =>
      rw [hread] at h
      injection h with h2
      subst h2
      exact ⟨processEntityRows_queue _ _ _ _ _ _ _,
        processEntityRows_vertexData _ _ _ _ _ _ _⟩

theorem entityLayer_ok {s : StoreModel} {p : Nat} {a : TimeAxis}
    {st st2 : EntityTraversalState} (h : entityLayer s p a st = .ok st2) :
    st2.entity_queue = entityEdgeCombos.flatMap (entityComboAdds s p a st.entity_queue) ∧
    st2.entity_type_queue = st.entity_type_queue ++ sharedAdds s p a st.entity_queue ∧
    st2.subgraph.vertexData = st.subgraph.vertexData := by
  simp only [entityLayer] at h
  split at h
  · cases h
  · next ctx1 sg1 etq1 hAS =>
    split at h
    · cases h
    · next ctx2 sg2 q2 hFold =>
      injection h with h2
      subst h2
      have hShared : etq1 = st.entity_type_queue ++ sharedAdds s p a st.entity_queue ∧
          sg1.vertexData = st.subgraph.vertexData := by
        simp only [sharedAdds]
        split at hAS
        · next hemp =>
          injection hAS with h3
          rw [if_pos hemp]
          constructor
          · have := congrArg (fun t => t.2.2) h3
            simp at this
            simp [this]
          · have := congrArg (fun t => t.2.1) h3
            simp at this
            simp [this]
        · next hemp =>
          rw [if_neg hemp]
          cases hread : read_shared_edges s
              ((entitySharedAdmitted st.entity_queue).map Prod.fst) p a with
          | error e =>
            rw [hread] at hAS
            cases hAS
          | ok rows =>
            rw [hread] at hAS
            injection hAS with h3
            constructor
            · have := congrArg (fun t => t.2.2) h3
              simp at this
              rw [← this, processSharedRows_queue]
            · have := congrArg (fun t => t.2.1) h3
              simp at this
              rw [← this, processSharedRows_vertexData]
      refine ⟨?_, ?_, ?_⟩
      · have hq := exceptFold_proj (fun acc => acc.2.2)
          (entityComboAdds s p a st.entity_queue)
          (fun kd acc acc2 hok => (entityLayerCombo_ok hok).1)
          entityEdgeCombos (ctx1, sg1, []) (ctx2, sg2, q2) hFold
        simpa using hq
      · exact hShared.1
      · have hvd := exceptFold_preserve
          (fun acc => acc.2.1.vertexData = st.subgraph.vertexData)
          (fun kd acc acc2 hok hP => ((entityLayerCombo_ok hok).2).trans hP)
          entityEdgeCombos (ctx1, sg1, []) (ctx2, sg2, q2) hFold hShared.2
        exact hvd

theorem etLayerKind_ok {s : StoreModel} {q0 : List OntologyQueueEntry}
    {kind : OntologyEdgeKind}
    {acc acc2 : TraversalContext × SubgraphM × List OntologyQueueEntry}
    (h : etLayerKind s q0 kind acc = .ok acc2) :
    acc2.2.2 = acc.2.2 ++ etKindAdds s q0 kind ∧
    acc2.2.1.vertexData = acc.2.1.vertexData := by
  simp only [etLayerKind] at h
  simp only [etKindAdds]
  split at h
  · next hemp =>
    injection h with h2
    subst h2
    rw [if_pos hemp]
    simp
  · next hemp =>
    rw [if_neg hemp]
    cases hread : read_ontology_edges s
        ((etAdmitted kind q0).map (fun e => e.vertex_id)) (etTable s kind) with
    | error e =>
      rw [hread] at h
      cases h
    | ok rows =>
      rw [hread] at h
      injection h with h2
      subst h2
      exact ⟨processOntologyRows_queue _ _ _ _ _, processOntologyRows_vertexData _ _ _ _ _⟩

theorem entityTypeLayer_ok {s : StoreModel} {st st2 : ETTraversalState}
    (h : entityTypeLayer s st = .ok st2) :
    st2.entity_type_queue =
      [OntologyEdgeKind.inheritsFrom, OntologyEdgeKind.constrainsLinksOn,
        OntologyEdgeKind.constrainsLinkDestinationsOn].flatMap
        (etKindAdds s st.entity_type_queue) ∧
    st2.property_type_queue = st.property_type_queue ++
      etKindAdds s st.entity_type_queue .constrainsPropertiesOn ∧
    st2.subgraph.vertexData = st.subgraph.vertexData := by
  simp only [entityTypeLayer] at h
  split at h
  · cases h
  · next ctx1 sg1 ptq1 hK =>
    split at h
    · cases h
    · next ctx2 sg2 q2 hFold =>
      injection h with h2
      subst h2
      have hFirst := etLayerKind_ok hK
      refine ⟨?_, ?_, ?_⟩
      · have hq := exceptFold_proj (fun acc => acc.2.2)
          (etKindAdds s st.entity_type_queue)
          (fun kind acc acc2 hok => (etLayerKind_ok hok).1)
          [OntologyEdgeKind.inheritsFrom, OntologyEdgeKind.constrainsLinksOn,
            OntologyEdgeKind.constrainsLinkDestinationsOn]
          (ctx1, sg1, []) (ctx2, sg2, q2) hFold
        simpa using hq
      · exact hFirst.1
      · have hvd := exceptFold_preserve
          (fun acc => acc.2.1.vertexData = st.subgraph.vertexData)
          (fun kind acc acc2 hok hP => ((etLayerKind_ok hok).2).trans hP)
          [OntologyEdgeKind.inheritsFrom, OntologyEdgeKind.constrainsLinksOn,
            OntologyEdgeKind.constrainsLinkDestinationsOn]
          (ctx1, sg1, []) (ctx2, sg2, q2) hFold hFirst.2
        exact hvd

theorem propertyTypeLayer_ok {s : StoreModel} {st st2 : PTTraversalState}
    (h : propertyTypeLayer s st = .ok st2) :
    st2.property_type_queue = ptPropAdds s st.property_type_queue ∧
    st2.data_type_queue = st.data_type_queue ++ ptValueAdds s st.property_type_queue ∧
    st2.subgraph.vertexData = st.subgraph.vertexData := by
  simp only [propertyTypeLayer] at h
  simp only [ptPropAdds, ptValueAdds]
  cases hq1 : data_type_constrains_values_query s
      ((ptAdmitted .constrainsValuesOn st.property_type_queue).map
        (fun e => e.vertex_id)) with
  | error e =>
    rw [hq1] at h
    cases h
  | ok rows =>
    rw [hq1] at h
    cases hq2 : property_type_constrains_properties_query s
        ((ptAdmitted .constrainsValuesOn st.property_type_queue).map
          (fun e => e.vertex_id)) with
    | error e =>
      rw [hq2] at h
      cases h
    | ok rows2 =>
      rw [hq2] at h
      injection h with h2
      subst h2
      refine ⟨?_, ?_, ?_⟩
      · rw [processPTPropRows_queue]
        simp
      · rw [processPTValueRows_queue]
      · rw [processPTPropRows_vertexData, processPTValueRows_vertexData]

/-! ### Admitted-group membership lemmas -/

theorem mem_entityKnowledgeAdmitted {kind : KnowledgeGraphEdgeKind} {dir : EdgeDirection}
    {q : List EntityQueueEntry} {fd : EntityFilterEntry × GraphResolveDepths}
    (h : fd ∈ entityKnowledgeAdmitted kind dir q) :
    ∃ e ∈ q, decrement_depth_for_knowledge_edge kind dir e.depths = some fd.2 ∧
      fd.1.interval = e.axes.variable_interval := by
  simp only [entityKnowledgeAdmitted, List.mem_filterMap] at h
  obtain ⟨e, he, hmap⟩ := h
  cases hd : decrement_depth_for_knowledge_edge kind dir e.depths with
  | none => rw [hd] at hmap; cases hmap
  | some nd =>
    rw [hd] at hmap
    injection hmap with h2
    subst h2
    exact ⟨e, he, hd, rfl⟩

theorem mem_entitySharedAdmitted {q : List EntityQueueEntry}
    {fd : EntityFilterEntry × GraphResolveDepths} (h : fd ∈ entitySharedAdmitted q) :
    ∃ e ∈ q, decrement_depth_for_shared_edge .isOfType .outgoing e.depths = some fd.2 ∧
      fd.1.interval = e.axes.variable_interval := by
  simp only [entitySharedAdmitted, List.mem_filterMap] at h
  obtain ⟨e, he, hmap⟩ := h
  cases hd : decrement_depth_for_shared_edge .isOfType .outgoing e.depths with
  | none => rw [hd] at hmap; cases hmap
  | some nd =>
    rw [hd] at hmap
    injection hmap with h2
    subst h2
    exact ⟨e, he, hd, rfl⟩

theorem mem_etAdmitted {kind : OntologyEdgeKind} {q : List OntologyQueueEntry}
    {x : OntologyQueueEntry} (h : x ∈ etAdmitted kind q) :
    ∃ e ∈ q, decrement_depth_for_ontology_edge kind .outgoing e.depths = some x.depths := by
  simp only [etAdmitted, List.mem_filterMap] at h
  obtain ⟨e, he, hmap⟩ := h
  cases hd : decrement_depth_for_ontology_edge kind .outgoing e.depths with
  | none => rw [hd] at hmap; cases hmap
  | some nd =>
    rw [hd] at hmap
    injection hmap with h2
    subst h2
    exact ⟨e, he, hd⟩

theorem mem_ptAdmitted {kind : OntologyEdgeKind} {q : List PTQueueEntry}
    {x : PTQueueEntry} (h : x ∈ ptAdmitted kind q) :
    ∃ e ∈ q, decrement_depth_for_ontology_edge kind .outgoing e.depths = some x.depths := by
  simp only [ptAdmitted, List.mem_filterMap] at h
  obtain ⟨e, he, hmap⟩ := h
  cases hd : decrement_depth_for_ontology_edge kind .outgoing e.depths with
  | none => rw [hd] at hmap; cases hmap
  | some nd =>
    rw [hd] at hmap
    injection hmap with h2
    subst h2
    exact ⟨e, he, hd⟩

/-! ### Dominance of enqueued depth vectors -/

theorem entityComboAdds_dominated (s : StoreModel) (p : Nat) (a : TimeAxis)
    (q0 : List EntityQueueEntry) (kd : KnowledgeGraphEdgeKind × EdgeDirection) :
    ∀ b ∈ entityComboAdds s p a q0 kd,
      ∃ e ∈ q0, b.depths.depthSum < e.depths.depthSum := by
  intro b hb
  simp only [entityComboAdds] at hb
  split at hb
  · cases hb
  · split at hb
    · cases hb
    · next rows hread =>
      simp only [List.mem_map] at hb
      obtain ⟨r, hrmem, hb⟩ := hb
      subst hb
      have hidx := (read_entity_edges_row hread r hrmem).1
      have hlen : r.idx <
          ((entityKnowledgeAdmitted kd.1 kd.2 q0).map Prod.snd).length := by
        simpa using hidx
      have hmem2 := getD_mem hlen GraphResolveDepths.zeroed
      simp only [List.mem_map] at hmem2
      obtain ⟨fd, hfd, hsnd⟩ := hmem2
      obtain ⟨e, he, hdec, _⟩ := mem_entityKnowledgeAdmitted hfd
      refine ⟨e, he, ?_⟩
      have : ((entityKnowledgeAdmitted kd.1 kd.2 q0).map Prod.snd).getD r.idx
          GraphResolveDepths.zeroed = fd.2 := hsnd.symm ▸ rfl
      simp only [this]
      exact depthSum_decrement_knowledge hdec

theorem entityComboAdds_interval (s : StoreModel) (p : Nat) (a : TimeAxis)
    (q0 : List EntityQueueEntry) (kd : KnowledgeGraphEdgeKind × EdgeDirection) :
    ∀ b ∈ entityComboAdds s p a q0 kd,
      ∃ e ∈ q0, b.axes.interval.subsetB e.axes.variable_interval = true := by
  intro b hb
  simp only [entityComboAdds] at hb
  split at hb
  · cases hb
  · split at hb
    · cases hb
    · next rows hread =>
      simp only [List.mem_map] at hb
      obtain ⟨r, hrmem, hb⟩ := hb
      subst hb
      obtain ⟨hidx, _, hsub⟩ := read_entity_edges_row hread r hrmem
      have hlen : r.idx <
          ((entityKnowledgeAdmitted kd.1 kd.2 q0).map Prod.fst).length := by
        simpa using hidx
      have hmem2 := getD_mem hlen defaultFilterEntry
      simp only [List.mem_map] at hmem2
      obtain ⟨fd, hfd, hfst⟩ := hmem2
      obtain ⟨e, he, _, hint⟩ := mem_entityKnowledgeAdmitted hfd
      refine ⟨e, he, ?_⟩
      rw [← hint]
      show r.interval.subsetB fd.1.interval = true
      rw [hfst]
      exact hsub

theorem etKindAdds_dominated (s : StoreModel) (q0 : List OntologyQueueEntry)
    (kind : OntologyEdgeKind) :
    ∀ b ∈ etKindAdds s q0 kind, ∃ e ∈ q0, b.depths.depthSum < e.depths.depthSum := by
  intro b hb
  simp only [etKindAdds] at hb
  split at hb
  · cases hb
  · split at hb
    · cases hb
    · next rows hread =>
      simp only [List.mem_map] at hb
      obtain ⟨r, hrmem, hb⟩ := hb
      subst hb
      have hidx := read_ontology_edges_row hread r hrmem
      have hlen : r.2.2 <
          ((etAdmitted kind q0).map (fun e => e.depths)).length := by
        simpa using hidx
      have hmem2 := getD_mem hlen GraphResolveDepths.zeroed
      simp only [List.mem_map] at hmem2
      obtain ⟨x, hx, hproj⟩ := hmem2
      obtain ⟨e, he, hdec⟩ := mem_etAdmitted hx
      refine ⟨e, he, ?_⟩
      have : ((etAdmitted kind q0).map (fun e => e.depths)).getD r.2.2
          GraphResolveDepths.zeroed = x.depths := hproj.symm ▸ rfl
      simp only [this]
      exact depthSum_decrement_ontology hdec

theorem ptPropAdds_dominated (s : StoreModel) (q0 : List PTQueueEntry) :
    ∀ b ∈ ptPropAdds s q0, ∃ e ∈ q0, b.depths.depthSum < e.depths.depthSum := by
  intro b hb
  simp only [ptPropAdds] at hb
  split at hb
  · cases hb
  · next rows hread =>
    simp only [List.mem_map] at hb
    obtain ⟨p, hpmem, hb⟩ := hb
    subst hb
    have hz := List.of_mem_zip hpmem
    have hsnd := hz.2
    simp only [List.mem_map] at hsnd
    obtain ⟨x, hx, hproj⟩ := hsnd
    obtain ⟨e, he, hdec⟩ := mem_ptAdmitted hx
    refine ⟨e, he, ?_⟩
    have hdepth : p.2.1 = x.depths := by
      rw [← hproj]
    simp only [hdepth]
    exact depthSum_decrement_ontology hdec

/-! ### Per-layer step facts and loop termination -/

theorem entityLayer_ne_outOfFuel (s : StoreModel) (p : Nat) (a : TimeAxis)
    (st : EntityTraversalState) : entityLayer s p a st ≠ .outOfFuel := by
  simp only [entityLayer]
  split
  · simp
  · split <;> simp

theorem entityTypeLayer_ne_outOfFuel (s : StoreModel) (st : ETTraversalState) :
    entityTypeLayer s st ≠ .outOfFuel := by
  simp only [entityTypeLayer]
  split
  · simp
  · split <;> simp

theorem propertyTypeLayer_ne_outOfFuel (s : StoreModel) (st : PTTraversalState) :
    propertyTypeLayer s st ≠ .outOfFuel := by
  simp only [propertyTypeLayer]
  split
  · simp
  · split <;> simp

theorem entityLayer_hstep (s : StoreModel) (p : Nat) (a : TimeAxis) :
    ∀ st st2, entityLayer s p a st = .ok st2 →
      ∀ b ∈ st2.entity_queue,
        ∃ e ∈ st.entity_queue, b.depths.depthSum < e.depths.depthSum := by
  intro st st2 h b hb
  rw [(entityLayer_ok h).1] at hb
  simp only [List.mem_flatMap] at hb
  obtain ⟨kd, _, hb⟩ := hb
  exact entityComboAdds_dominated s p a st.entity_queue kd b hb

theorem entityTypeLayer_hstep (s : StoreModel) :
    ∀ st st2, entityTypeLayer s st = .ok st2 →
      ∀ b ∈ st2.entity_type_queue,
        ∃ e ∈ st.entity_type_queue, b.depths.depthSum < e.depths.depthSum := by
  intro st st2 h b hb
  rw [(entityTypeLayer_ok h).1] at hb
  simp only [List.mem_flatMap] at hb
  obtain ⟨kind, _, hb⟩ := hb
  exact etKindAdds_dominated s st.entity_type_queue kind b hb

theorem propertyTypeLayer_hstep (s : StoreModel) :
    ∀ st st2, propertyTypeLayer s st = .ok st2 →
      ∀ b ∈ st2.property_type_queue,
        ∃ e ∈ st.property_type_queue, b.depths.depthSum < e.depths.depthSum := by
  intro st st2 h b hb
  rw [(propertyTypeLayer_ok h).1] at hb
  exact ptPropAdds_dominated s st.property_type_queue b hb

theorem entityLoop_no_outOfFuel (s : StoreModel) (p : Nat) (a : TimeAxis)
    (st : EntityTraversalState) :
    fuelLoop (fun st => st.entity_queue) (entityLayer s p a)
      (entityBound st.entity_queue) st ≠ .outOfFuel := by
  apply fuelLoop_no_outOfFuel _ _ (fun e => e.depths.depthSum)
    (entityLayer_ne_outOfFuel s p a) (entityLayer_hstep s p a)
  intro e he
  exact Nat.lt_succ_of_le (listMaxN_le_of_mem (List.mem_map_of_mem _ he))

theorem etLoop_no_outOfFuel (s : StoreModel) (st : ETTraversalState) :
    fuelLoop (fun st => st.entity_type_queue) (entityTypeLayer s)
      (ontologyBound st.entity_type_queue) st ≠ .outOfFuel := by
  apply fuelLoop_no_outOfFuel _ _ (fun e => e.depths.depthSum)
    (entityTypeLayer_ne_outOfFuel s) (entityTypeLayer_hstep s)
  intro e he
  exact Nat.lt_succ_of_le (listMaxN_le_of_mem (List.mem_map_of_mem _ he))

theorem ptLoop_no_outOfFuel (s : StoreModel) (st : PTTraversalState) :
    fuelLoop (fun st => st.property_type_queue) (propertyTypeLayer s)
      (ptBound st.property_type_queue) st ≠ .outOfFuel := by
  apply fuelLoop_no_outOfFuel _ _ (fun e => e.depths.depthSum)
    (propertyTypeLayer_ne_outOfFuel s) (propertyTypeLayer_hstep s)
  intro e he
  exact Nat.lt_succ_of_le (listMaxN_le_of_mem (List.mem_map_of_mem _ he))

theorem traverse_property_types_no_fuel (s : StoreModel) (queue : List PTQueueEntry)
    (ctx : TraversalContext) (sg : SubgraphM) :
    traverse_property_types s queue ctx sg ≠ .outOfFuel := by
  simp only [traverse_property_types]
  cases hl : fuelLoop (fun st => st.property_type_queue) (propertyTypeLayer s)
      (ptBound queue) ⟨queue, [], ctx, sg⟩ with
  | ok st => simp
  | queryFailed => simp
  | panicked => simp
  | outOfFuel => exact absurd hl (ptLoop_no_outOfFuel s _)

theorem traverse_entity_types_no_fuel (s : StoreModel) (queue : List OntologyQueueEntry)
    (ctx : TraversalContext) (sg : SubgraphM) :
    traverse_entity_types s queue ctx sg ≠ .outOfFuel := by
  simp only [traverse_entity_types]
  cases hl : fuelLoop (fun st => st.entity_type_queue) (entityTypeLayer s)
      (ontologyBound queue) ⟨queue, [], ctx, sg⟩ with
  | ok st => exact traverse_property_types_no_fuel s _ _ _
  | queryFailed => simp
  | panicked => simp
  | outOfFuel => exact absurd hl (etLoop_no_outOfFuel s _)

theorem traverse_entities_no_fuel (s : StoreModel) (queue : List EntityQueueEntry)
    (ctx : TraversalContext) (sg : SubgraphM) :
    traverse_entities s queue ctx sg ≠ .outOfFuel := by
  simp only [traverse_entities]
  cases hl : fuelLoop (fun st => st.entity_queue)
      (entityLayer s sg.temporal_axes.pinned sg.temporal_axes.variable_axis)
      (entityBound queue) ⟨queue, [], ctx, sg⟩ with
  | ok st => exact traverse_entity_types_no_fuel s _ _ _
  | queryFailed => simp
  | panicked => simp
  | outOfFuel => exact absurd hl (entityLoop_no_outOfFuel s _ _ _)

/-! ### Claim theorems -/

/-- C3: for every store graph — self-edges and cycles across ontology or
knowledge-graph edges included — and every finite resolve-depth vector, the traversal
fixpoint loops terminate: each of `traverse_entities`, `traverse_entity_types` and
`traverse_property_types` never exhausts its computed iteration budget, and a loop
that returns successfully has emptied its frontier. -/
theorem traversal_fixpoint_terminates :
    (∀ (s : StoreModel) (queue : List EntityQueueEntry) (ctx : TraversalContext)
      (sg : SubgraphM), traverse_entities s queue ctx sg ≠ .outOfFuel) ∧
    (∀ (s : StoreModel) (queue : List OntologyQueueEntry) (ctx : TraversalContext)
      (sg : SubgraphM), traverse_entity_types s queue ctx sg ≠ .outOfFuel) ∧
    (∀ (s : StoreModel) (queue : List PTQueueEntry) (ctx : TraversalContext)
      (sg : SubgraphM), traverse_property_types s queue ctx sg ≠ .outOfFuel) ∧
    (∀ (s : StoreModel) (p : Nat) (a : TimeAxis) (st st2 : EntityTraversalState),
      fuelLoop (fun st => st.entity_queue) (entityLayer s p a)
        (entityBound st.entity_queue) st = .ok st2 → st2.entity_queue = []) :=
  ⟨traverse_entities_no_fuel, traverse_entity_types_no_fuel,
    traverse_property_types_no_fuel,
    fun s p a st st2 h => fuelLoop_ok_queue_empty _ _ _ st st2 h⟩

theorem traversal_fixpoint_terminates_witness :
    (⟨[], [], TraversalContext.empty, sgW⟩ : EntityTraversalState).entity_queue = [] :=
  traversal_fixpoint_terminates.2.2.2 emptyStore 0 .decisionTime
    ⟨[], [], TraversalContext.empty, sgW⟩ ⟨[], [], TraversalContext.empty, sgW⟩
    (by decide)

/-- C1: evaluation of `traverse_property_types` at the failing input.  The frontier is
`[P1 := (1,1) at data-type depth 2, P2 := (2,1) at depth 5]` over a store where `P1`
constrains values on `D1 := (11,1)` and `D2 := (12,1)`, and `P2` on `D3 := (13,1)`.
Because the layer `zip`s the result rows with the admitted depth list positionally
instead of using the rows' ordinal source indices, `D2` — reached from `P1` — is
enqueued with `P2`'s decremented vector `(4,0,0,0)` rather than `P1`'s `(1,0,0,0)`,
and `P2`'s actual target `D3` is dropped altogether. -/
theorem property_type_layer_misassigns_depths :
    propertyTypeLayer cexValuesStore cexPTState = .ok
      ⟨[],
       [⟨⟨11, 1⟩, ⟨1, 0, 0, 0⟩, axW⟩, ⟨⟨12, 1⟩, ⟨4, 0, 0, 0⟩, axW⟩],
       { TraversalContext.empty with data_type_ontology_ids := [201, 202] },
       { sgW with edges :=
          [⟨.propertyTypeV ⟨1, 1⟩, .ontology .constrainsValuesOn, .outgoing,
            .vertexTarget (.dataTypeV ⟨11, 1⟩)⟩,
           ⟨.propertyTypeV ⟨1, 1⟩, .ontology .constrainsValuesOn, .outgoing,
            .vertexTarget (.dataTypeV ⟨12, 1⟩)⟩] }⟩ := by
  decide

/-- C2 (counterexample): it is not the case that a target vertex id is added to the
next-layer frontier only if it was absent from the traversal context's scheduled set:
with `T := (23,1)` already scheduled and the frontier `[A1, A2]` both inheriting from
`T` at entity-type depth 1, one `traverse_entity_types` layer enqueues `T` anyway
(twice, at the same depth). -/
theorem entity_type_enqueue_not_gated :
    ¬ (∀ (s : StoreModel) (st st2 : ETTraversalState),
        entityTypeLayer s st = .ok st2 →
        ∀ e ∈ st2.entity_type_queue, e.vertex_id ∉ st.ctx.entity_type_ids) := by
  intro hclaim
  have hmem := hclaim cexInheritsStore cexETState
    ⟨[⟨⟨23, 1⟩, ⟨0, 0, 0, 0⟩⟩, ⟨⟨23, 1⟩, ⟨0, 0, 0, 0⟩⟩], [], cexETCtx,
      { sgW with edges :=
        [⟨.entityTypeV ⟨21, 1⟩, .ontology .inheritsFrom, .outgoing,
          .vertexTarget (.entityTypeV ⟨23, 1⟩)⟩,
         ⟨.entityTypeV ⟨22, 1⟩, .ontology .inheritsFrom, .outgoing,
          .vertexTarget (.entityTypeV ⟨23, 1⟩)⟩] }⟩
    (by decide) ⟨⟨23, 1⟩, ⟨0, 0, 0, 0⟩⟩ (by decide)
  exact hmem (by decide)

/-- C2 (amended): a target returned by a resolver is enqueued into the next-layer
frontier unconditionally — the next frontier and the property-type handoff queue are
determined by the store and the drained frontier alone (`etKindAdds` does not consult
the traversal context), so the scheduled set records ids for payload loading but never
gates enqueuing, and a vertex can be re-expanded at an equal depth. -/
theorem entity_type_layer_enqueues_unconditionally :
    ∀ (s : StoreModel) (st st2 : ETTraversalState), entityTypeLayer s st = .ok st2 →
      st2.entity_type_queue =
        [OntologyEdgeKind.inheritsFrom, OntologyEdgeKind.constrainsLinksOn,
          OntologyEdgeKind.constrainsLinkDestinationsOn].flatMap
          (etKindAdds s st.entity_type_queue) ∧
      st2.property_type_queue = st.property_type_queue ++
        etKindAdds s st.entity_type_queue .constrainsPropertiesOn :=
  fun _ _ _ h => ⟨(entityTypeLayer_ok h).1, (entityTypeLayer_ok h).2.1⟩

theorem entity_type_layer_enqueues_unconditionally_witness :
    ([⟨⟨23, 1⟩, ⟨0, 0, 0, 0⟩⟩, ⟨⟨23, 1⟩, ⟨0, 0, 0, 0⟩⟩] : List OntologyQueueEntry) =
      [OntologyEdgeKind.inheritsFrom, OntologyEdgeKind.constrainsLinksOn,
        OntologyEdgeKind.constrainsLinkDestinationsOn].flatMap
        (etKindAdds cexInheritsStore cexETState.entity_type_queue) ∧
    ([] : List OntologyQueueEntry) = [] ++
      etKindAdds cexInheritsStore cexETState.entity_type_queue .constrainsPropertiesOn :=
  entity_type_layer_enqueues_unconditionally cexInheritsStore cexETState
    ⟨[⟨⟨23, 1⟩, ⟨0, 0, 0, 0⟩⟩, ⟨⟨23, 1⟩, ⟨0, 0, 0, 0⟩⟩], [], cexETCtx,
      { sgW with edges :=
        [⟨.entityTypeV ⟨21, 1⟩, .ontology .inheritsFrom, .outgoing,
          .vertexTarget (.entityTypeV ⟨23, 1⟩)⟩,
         ⟨.entityTypeV ⟨22, 1⟩, .ontology .inheritsFrom, .outgoing,
          .vertexTarget (.entityTypeV ⟨23, 1⟩)⟩] }⟩
    (by decide)

/-- C5 (counterexample): a knowledge-graph edge row reaching entity `(1,2)` — whose
own decision-time interval starts at 5 — under parent interval `[0, ∞)` carries the
propagated interval `[5, ∞)` but installs revision id `0` on the target vertex: the
lower bound of the SOURCE row's variable-axis column, not of the propagated
interval. -/
theorem entity_edge_revision_not_lower_of_propagated :
    read_entity_edges cexEntityStore [⟨1, 1, ⟨0, none⟩⟩] 0 .decisionTime
        cexEntityStore.entity_has_left_entity .outgoing = .ok
      [⟨⟨⟨1, 1⟩, 0⟩, ⟨⟨1, 2⟩, 0⟩, ⟨⟨1, 2⟩, ⟨5, none⟩⟩, 20, ⟨5, none⟩, 0⟩] ∧
    (⟨⟨1, 2⟩, 0⟩ : EntityVertexId).revision_id ≠
      (⟨5, none⟩ : TemporalInterval).lower := by
  constructor
  · decide
  · decide

/-- C5 (amended): for every row returned by `read_entity_edges`, the revision id
installed on the target vertex equals the source vertex's revision id — the lower
bound of the source row's variable-axis interval, not of the propagated interval — and
the propagated interval is contained in the parent interval at the row's ordinal
index; consequently every entity layer keeps all frontier intervals inside the root's
variable interval. -/
theorem entity_edge_revision_and_interval_facts :
    (∀ (s : StoreModel) (filters : List EntityFilterEntry) (pinned : Nat)
      (axis : TimeAxis) (table : List (EntityId × EntityId)) (dir : EdgeDirection)
      (rows : List EntityEdgeRow),
      read_entity_edges s filters pinned axis table dir = .ok rows →
      ∀ r ∈ rows, r.target_vertex_id.revision_id = r.source_vertex_id.revision_id ∧
        r.interval.subsetB (filters.getD r.idx defaultFilterEntry).interval = true) ∧
    (∀ (s : StoreModel) (p : Nat) (a : TimeAxis) (st st2 : EntityTraversalState)
      (rootI : TemporalInterval), entityLayer s p a st = .ok st2 →
      (∀ e ∈ st.entity_queue, e.axes.interval.subsetB rootI = true) →
      (∀ e ∈ st2.entity_queue, e.axes.interval.subsetB rootI = true)) := by
  constructor
  · intro s filters pinned axis table dir rows h r hr
    exact ⟨(read_entity_edges_row h r hr).2.1, (read_entity_edges_row h r hr).2.2⟩
  · intro s p a st st2 rootI h hinv e he
    rw [(entityLayer_ok h).1] at he
    simp only [List.mem_flatMap] at he
    obtain ⟨kd, _, he⟩ := he
    obtain ⟨e0, he0, hsub⟩ := entityComboAdds_interval s p a st.entity_queue kd e he
    exact subsetB_trans hsub (hinv e0 he0)

theorem entity_edge_revision_and_interval_facts_witness :
    ((⟨⟨⟨1, 1⟩, 0⟩, ⟨⟨1, 2⟩, 0⟩, ⟨⟨1, 2⟩, ⟨5, none⟩⟩, 20, ⟨5, none⟩, 0⟩ :
        EntityEdgeRow).target_vertex_id.revision_id =
      (⟨⟨⟨1, 1⟩, 0⟩, ⟨⟨1, 2⟩, 0⟩, ⟨⟨1, 2⟩, ⟨5, none⟩⟩, 20, ⟨5, none⟩, 0⟩ :
        EntityEdgeRow).source_vertex_id.revision_id) ∧
    (⟨⟨⟨1, 1⟩, 0⟩, ⟨⟨1, 2⟩, 0⟩, ⟨⟨1, 2⟩, ⟨5, none⟩⟩, 20, ⟨5, none⟩, 0⟩ :
        EntityEdgeRow).interval.subsetB
      (([⟨1, 1, ⟨0, none⟩⟩] : List EntityFilterEntry).getD 0 defaultFilterEntry).interval
      = true :=
  entity_edge_revision_and_interval_facts.1 cexEntityStore [⟨1, 1, ⟨0, none⟩⟩] 0
    .decisionTime cexEntityStore.entity_has_left_entity .outgoing
    [⟨⟨⟨1, 1⟩, 0⟩, ⟨⟨1, 2⟩, 0⟩, ⟨⟨1, 2⟩, ⟨5, none⟩⟩, 20, ⟨5, none⟩, 0⟩] (by decide)
    ⟨⟨⟨1, 1⟩, 0⟩, ⟨⟨1, 2⟩, 0⟩, ⟨⟨1, 2⟩, ⟨5, none⟩⟩, 20, ⟨5, none⟩, 0⟩ (by decide)

/-- C6: a backing-store failure during `traverse_property_types` is `unwrap`ped and so
panics the driver instead of surfacing `Err(QueryError)`; by contrast the entity
driver propagates the failure as a `QueryError` result. -/
theorem property_type_layer_panics_on_store_failure :
    propertyTypeLayer failingStore ptStateForFail = .panicked ∧
    entityLayer failingStore 0 .decisionTime entStateForFail = .queryFailed := by
  constructor
  · decide
  · decide

/-- C7: `update_entity` can never surface `EntityDoesNotExist`: the `SELECT EXISTS`
probe returns exactly one row whenever it succeeds, so the `query_opt(..).is_none()`
guard is dead code; updating an absent entity id surfaces whatever failure the
`update_entity` call produces as a plain `UpdateError` instead. -/
theorem update_entity_never_entity_does_not_exist :
    (∀ (resp : UpdateStoreResponses) (entity_id : EntityId) (rcb : Nat)
      (archived : Bool) (tid : VersionedUrlM),
      (update_entity resp entity_id rcb archived tid).1 ≠
        .error .entityDoesNotExist) ∧
    update_entity ⟨.ok 1, .ok false, .error .otherFailure, .ok ()⟩ ⟨1, 1⟩ 1 false
      ⟨1, 1⟩ = (.error .plainUpdate, false) := by
  constructor
  · intro resp entity_id rcb archived tid
    obtain ⟨o, ex, up, cm⟩ := resp
    cases o with
    | error e => simp [update_entity]
    | ok oid =>
      cases ex with
      | error e => simp [update_entity]
      | ok b =>
        cases up with
        | error f => cases f <;> cases cm <;> simp [update_entity]
        | ok row => cases cm <;> simp [update_entity]
  · decide

/-- C8: `update_entity` runs inside a transaction that is committed exactly on
success; the store's restriction-violation signal is surfaced as
`RaceConditionOnUpdate` inside the `UpdateError`, and every other store failure as a
plain `UpdateError`. -/
theorem update_entity_race_condition_exact :
    ∀ (resp : UpdateStoreResponses) (entity_id : EntityId) (rcb : Nat)
      (archived : Bool) (tid : VersionedUrlM) (oid : Nat) (b : Bool),
      resp.ontology_id_result = .ok oid →
      resp.exists_query_result = .ok b →
      (((update_entity resp entity_id rcb archived tid).1 =
          .error .raceConditionOnUpdate) ↔
        resp.update_row_result = .error .restrictViolation) ∧
      (resp.update_row_result = .error .otherFailure →
        (update_entity resp entity_id rcb archived tid).1 = .error .plainUpdate) ∧
      ((update_entity resp entity_id rcb archived tid).2 = true →
        ∃ m, (update_entity resp entity_id rcb archived tid).1 = .ok m) ∧
      (∀ row, resp.update_row_result = .ok row → resp.commit_result = .ok () →
        update_entity resp entity_id rcb archived tid =
          (.ok ⟨entity_id, row.entity_edition_id, row.decision_time,
            row.transaction_time, tid, rcb, archived⟩, true)) := by
  intro resp entity_id rcb archived tid oid b ho hex
  obtain ⟨o, ex, up, cm⟩ := resp
  simp only at ho hex
  subst ho
  subst hex
  cases up with
  | error f => cases f <;> cases cm <;> simp [update_entity]
  | ok row => cases cm <;> simp [update_entity]

theorem update_entity_race_condition_exact_witness :
    (((update_entity ⟨.ok 5, .ok true, .error .restrictViolation, .ok ()⟩ ⟨2, 3⟩ 1
        false ⟨4, 1⟩).1 = .error .raceConditionOnUpdate) ↔
      (Except.error .restrictViolation :
        Except UpdateFailure EditionRow) = .error .restrictViolation) ∧
    ((Except.error .restrictViolation : Except UpdateFailure EditionRow) =
        .error .otherFailure →
      (update_entity ⟨.ok 5, .ok true, .error .restrictViolation, .ok ()⟩ ⟨2, 3⟩ 1
        false ⟨4, 1⟩).1 = .error .plainUpdate) ∧
    ((update_entity ⟨.ok 5, .ok true, .error .restrictViolation, .ok ()⟩ ⟨2, 3⟩ 1
        false ⟨4, 1⟩).2 = true →
      ∃ m, (update_entity ⟨.ok 5, .ok true, .error .restrictViolation, .ok ()⟩ ⟨2, 3⟩
        1 false ⟨4, 1⟩).1 = .ok m) ∧
    (∀ row, (Except.error .restrictViolation : Except UpdateFailure EditionRow) =
        .ok row →
      (Except.ok () : Except Unit Unit) = .ok () →
      update_entity ⟨.ok 5, .ok true, .error .restrictViolation, .ok ()⟩ ⟨2, 3⟩ 1
        false ⟨4, 1⟩ =
        (.ok ⟨⟨2, 3⟩, row.entity_edition_id, row.decision_time, row.transaction_time,
          ⟨4, 1⟩, 1, false⟩, true)) :=
  update_entity_race_condition_exact
    ⟨.ok 5, .ok true, .error .restrictViolation, .ok ()⟩ ⟨2, 3⟩ 1 false ⟨4, 1⟩ 5 true
    rfl rfl

/-- C10: on success `create_entity` returns metadata whose entity id carries exactly
the supplied owner id and the supplied entity uuid when one is given (the fresh
random uuid is used only when none is given), echoing the entity type id, the actor id
and the archived flag unchanged. -/
theorem create_entity_echoes_inputs :
    ∀ (resp : CreateStoreResponses) (owner : Nat) (uuid : Option Nat) (fresh : Nat)
      (rcb : Nat) (archived : Bool) (tid : VersionedUrlM) (oid : Nat)
      (row : EditionRow),
      resp.ontology_id_result = .ok oid → resp.create_row_result = .ok row →
      create_entity resp owner uuid fresh rcb archived tid = .ok
        ⟨⟨owner, uuid.getD fresh⟩, row.entity_edition_id, row.decision_time,
          row.transaction_time, tid, rcb, archived⟩ ∧
      (∀ u, uuid = some u → uuid.getD fresh = u) ∧
      (uuid = none → uuid.getD fresh = fresh) := by
  intro resp owner uuid fresh rcb archived tid oid row ho hrow
  obtain ⟨o, cr⟩ := resp
  simp only at ho hrow
  subst ho
  subst hrow
  refine ⟨by simp [create_entity], ?_, ?_⟩
  · intro u hu
    subst hu
    rfl
  · intro hu
    subst hu
    rfl

theorem create_entity_echoes_inputs_witness :
    create_entity ⟨.ok 9, .ok ⟨77, ⟨1, none⟩, ⟨2, none⟩⟩⟩ 40 (some 41) 42 43 true
        ⟨6, 2⟩ = .ok
      ⟨⟨40, (some 41).getD 42⟩, (⟨77, ⟨1, none⟩, ⟨2, none⟩⟩ : EditionRow).entity_edition_id,
        (⟨77, ⟨1, none⟩, ⟨2, none⟩⟩ : EditionRow).decision_time,
        (⟨77, ⟨1, none⟩, ⟨2, none⟩⟩ : EditionRow).transaction_time, ⟨6, 2⟩, 43, true⟩ ∧
    (∀ u, some 41 = some u → (some 41).getD 42 = u) ∧
    ((some 41 : Option Nat) = none → (some 41).getD 42 = 42) :=
  create_entity_echoes_inputs ⟨.ok 9, .ok ⟨77, ⟨1, none⟩, ⟨2, none⟩⟩⟩ 40 (some 41) 42
    43 true ⟨6, 2⟩ 9 ⟨77, ⟨1, none⟩, ⟨2, none⟩⟩ rfl rfl

/-! ### Zero-depth evaluation lemmas -/

theorem listMaxN_eq_zero {l : List Nat} (h : ∀ x ∈ l, x = 0) : listMaxN l = 0 := by
  induction l with
  | nil => rfl
  | cons a as ih =>
    simp only [listMaxN]
    rw [h a (List.mem_cons_self _ _), ih (fun x hx => h x (List.mem_cons_of_mem _ hx))]
    simp

theorem entitySharedAdmitted_zero {q : List EntityQueueEntry}
    (h : ∀ e ∈ q, e.depths = GraphResolveDepths.zeroed) :
    entitySharedAdmitted q = [] := by
  simp only [entitySharedAdmitted]
  rw [List.filterMap_eq_nil]
  intro e he
  rw [h e he]
  rfl

theorem entityKnowledgeAdmitted_zero {kind : KnowledgeGraphEdgeKind}
    {dir : EdgeDirection} {q : List EntityQueueEntry}
    (h : ∀ e ∈ q, e.depths = GraphResolveDepths.zeroed) :
    entityKnowledgeAdmitted kind dir q = [] := by
  simp only [entityKnowledgeAdmitted]
  rw [List.filterMap_eq_nil]
  intro e he
  rw [h e he]
  rfl

theorem entityLayer_zero {s : StoreModel} {p : Nat} {a : TimeAxis}
    {st : EntityTraversalState}
    (h : ∀ e ∈ st.entity_queue, e.depths = GraphResolveDepths.zeroed) :
    entityLayer s p a st = .ok ⟨[], st.entity_type_queue, st.ctx, st.subgraph⟩ := by
  simp [entityLayer, entitySharedAdmitted_zero h, entityKnowledgeAdmitted_zero h,
    entityLayerCombo, exceptFold, entityEdgeCombos]

theorem traverse_property_types_nil (s : StoreModel) (ctx : TraversalContext)
    (sg : SubgraphM) : traverse_property_types s [] ctx sg = .ok (ctx, sg) := by
  simp [traverse_property_types, ptBound, listMaxN, fuelLoop, traverse_data_types]

theorem traverse_entity_types_nil (s : StoreModel) (ctx : TraversalContext)
    (sg : SubgraphM) : traverse_entity_types s [] ctx sg = .ok (ctx, sg) := by
  simp [traverse_entity_types, ontologyBound, listMaxN, fuelLoop,
    traverse_property_types_nil]

theorem traverse_entities_zero (s : StoreModel)
    (l : List (EntityVertexId × EntityRecord)) (ctx : TraversalContext)
    (sg : SubgraphM) (axes : QueryTemporalAxesM) :
    traverse_entities s
      (l.map fun p => ⟨p.1, GraphResolveDepths.zeroed, axes⟩) ctx sg = .ok (ctx, sg) := by
  have hq : ∀ e ∈ (l.map fun p =>
      (⟨p.1, GraphResolveDepths.zeroed, axes⟩ : EntityQueueEntry)),
      e.depths = GraphResolveDepths.zeroed := by
    intro e he
    simp only [List.mem_map] at he
    obtain ⟨q, _, rfl⟩ := he
    rfl
  have hbound : entityBound (l.map fun p =>
      (⟨p.1, GraphResolveDepths.zeroed, axes⟩ : EntityQueueEntry)) = 1 := by
    simp only [entityBound, Nat.add_left_eq_self]
    apply listMaxN_eq_zero
    intro x hx
    simp only [List.map_map, List.mem_map, Function.comp] at hx
    obtain ⟨q0, _, rfl⟩ := hx
    rfl
  simp only [traverse_entities, hbound]
  cases l with
  | nil => simp [fuelLoop, traverse_entity_types_nil]
  | cons p0 ls =>
    have hlayer := @entityLayer_zero s sg.temporal_axes.pinned
      sg.temporal_axes.variable_axis
      ⟨(p0 :: ls).map fun p => ⟨p.1, GraphResolveDepths.zeroed, axes⟩, [], ctx, sg⟩
      hq
    simp only [fuelLoop, List.map_cons, List.isEmpty_cons, Bool.false_eq_true,
      if_false] at hlayer ⊢
    rw [hlayer]
    simp [fuelLoop, traverse_entity_types_nil]

theorem load_vertices_empty_ctx {s : StoreModel} (sg : SubgraphM)
    (h : s.failing = false) :
    load_vertices s TraversalContext.empty sg = .ok sg := by
  simp [load_vertices, h, TraversalContext.empty]

/-- C4: a `get_entity` query whose four resolve depths are all zero returns exactly
the root vertices obtained from root selection — they are the only vertices of any
kind — and no edges; the roots recorded are exactly their vertex keys. -/
theorem get_entity_zero_depths (s : StoreModel) (roots : List EntityRecord)
    (axes : QueryTemporalAxesM) (h : s.failing = false) :
    get_entity s roots GraphResolveDepths.zeroed axes = .ok
      { depths := GraphResolveDepths.zeroed, temporal_axes := axes,
        entities := collectEntities roots axes.variable_axis, entity_types := [],
        property_types := [], data_types := [], edges := [],
        roots := (collectEntities roots axes.variable_axis).map
          fun p => .entityV p.1 } := by
  simp only [get_entity, h, Bool.false_eq_true, if_false, traverse_entities_zero]
  simp only [load_vertices_empty_ctx, h]

theorem get_entity_zero_depths_witness :
    get_entity emptyStore [rootW] GraphResolveDepths.zeroed axW = .ok
      { depths := GraphResolveDepths.zeroed, temporal_axes := axW,
        entities := collectEntities [rootW] axW.variable_axis, entity_types := [],
        property_types := [], data_types := [], edges := [],
        roots := (collectEntities [rootW] axW.variable_axis).map
          fun p => .entityV p.1 } :=
  get_entity_zero_depths emptyStore [rootW] axW rfl

/-! ### Vertex and root preservation through the pipeline -/

theorem vertexData_eq {g1 g2 : SubgraphM} (h : g1.vertexData = g2.vertexData) :
    g1.entities = g2.entities ∧ g1.entity_types = g2.entity_types ∧
    g1.property_types = g2.property_types ∧ g1.data_types = g2.data_types ∧
    g1.roots = g2.roots := by
  simp only [SubgraphM.vertexData, Prod.mk.injEq] at h
  exact h

theorem traverse_property_types_vertexData {s : StoreModel} {queue : List PTQueueEntry}
    {ctx ctx2 : TraversalContext} {sg sg2 : SubgraphM}
    (h : traverse_property_types s queue ctx sg = .ok (ctx2, sg2)) :
    sg2.vertexData = sg.vertexData := by
  simp only [traverse_property_types] at h
  cases hl : fuelLoop (fun st => st.property_type_queue) (propertyTypeLayer s)
      (ptBound queue) ⟨queue, [], ctx, sg⟩ with
  | ok st =>
    rw [hl] at h
    injection h with h2
    have hP := fuelLoop_preserve (fun st => st.property_type_queue)
      (propertyTypeLayer s) (fun st => st.subgraph.vertexData = sg.vertexData)
      (fun st1 st2 hok hPrev => ((propertyTypeLayer_ok hok).2.2).trans hPrev)
      (ptBound queue) ⟨queue, [], ctx, sg⟩ st hl rfl
    have : sg2 = st.subgraph := (congrArg Prod.snd h2).symm
    rw [this]
    exact hP
  | queryFailed => rw [hl] at h; cases h
  | panicked => rw [hl] at h; cases h
  | outOfFuel => rw [hl] at h; cases h

theorem traverse_entity_types_vertexData {s : StoreModel}
    {queue : List OntologyQueueEntry} {ctx ctx2 : TraversalContext} {sg sg2 : SubgraphM}
    (h : traverse_entity_types s queue ctx sg = .ok (ctx2, sg2)) :
    sg2.vertexData = sg.vertexData := by
  simp only [traverse_entity_types] at h
  cases hl : fuelLoop (fun st => st.entity_type_queue) (entityTypeLayer s)
      (ontologyBound queue) ⟨queue, [], ctx, sg⟩ with
  | ok st =>
    rw [hl] at h
    have hP := fuelLoop_preserve (fun st => st.entity_type_queue)
      (entityTypeLayer s) (fun st => st.subgraph.vertexData = sg.vertexData)
      (fun st1 st2 hok hPrev => ((entityTypeLayer_ok hok).2.2).trans hPrev)
      (ontologyBound queue) ⟨queue, [], ctx, sg⟩ st hl rfl
    exact (traverse_property_types_vertexData h).trans hP
  | queryFailed => rw [hl] at h; cases h
  | panicked => rw [hl] at h; cases h
  | outOfFuel => rw [hl] at h; cases h

theorem traverse_entities_vertexData {s : StoreModel} {queue : List EntityQueueEntry}
    {ctx ctx2 : TraversalContext} {sg sg2 : SubgraphM}
    (h : traverse_entities s queue ctx sg = .ok (ctx2, sg2)) :
    sg2.vertexData = sg.vertexData := by
  simp only [traverse_entities] at h
  cases hl : fuelLoop (fun st => st.entity_queue)
      (entityLayer s sg.temporal_axes.pinned sg.temporal_axes.variable_axis)
      (entityBound queue) ⟨queue, [], ctx, sg⟩ with
  | ok st =>
    rw [hl] at h
    have hP := fuelLoop_preserve (fun st => st.entity_queue)
      (entityLayer s sg.temporal_axes.pinned sg.temporal_axes.variable_axis)
      (fun st => st.subgraph.vertexData = sg.vertexData)
      (fun st1 st2 hok hPrev => ((entityLayer_ok hok).2.2).trans hPrev)
      (entityBound queue) ⟨queue, [], ctx, sg⟩ st hl rfl
    exact (traverse_entity_types_vertexData h).trans hP
  | queryFailed => rw [hl] at h; cases h
  | panicked => rw [hl] at h; cases h
  | outOfFuel => rw [hl] at h; cases h

theorem insertIfAbsent_keys_mono {κ ω : Type} [DecidableEq κ] {m : List (κ × ω)}
    {k0 : κ} {v : ω} {k : κ} (h : k ∈ m.map Prod.fst) :
    k ∈ (insertIfAbsent m k0 v).map Prod.fst := by
  simp only [insertIfAbsent]
  split
  · exact h
  · simp only [List.map_append, List.mem_append]
    exact Or.inl h

theorem foldl_keys_mono {κ ω α : Type} [DecidableEq κ]
    (step : List (κ × ω) → α → List (κ × ω))
    (hstep : ∀ m a k, k ∈ m.map Prod.fst → k ∈ (step m a).map Prod.fst) :
    ∀ (l : List α) (m : List (κ × ω)) (k : κ),
      k ∈ m.map Prod.fst → k ∈ (l.foldl step m).map Prod.fst := by
  intro l
  induction l with
  | nil => intro m k h; exact h
  | cons a as ih => intro m k h; exact ih (step m a) k (hstep m a k h)

theorem load_vertices_ok {s : StoreModel} {ctx : TraversalContext} {sg sg2 : SubgraphM}
    (h : load_vertices s ctx sg = .ok sg2) :
    sg2.roots = sg.roots ∧
    (∀ k, k ∈ sg.entities.map Prod.fst → k ∈ sg2.entities.map Prod.fst) ∧
    (∀ k, k ∈ sg.entity_types.map Prod.fst → k ∈ sg2.entity_types.map Prod.fst) := by
  simp only [load_vertices] at h
  split at h
  · cases h
  · injection h with h2
    subst h2
    refine ⟨rfl, ?_, ?_⟩
    · intro k hk
      apply foldl_keys_mono _ _ ctx.entity_edition_ids sg.entities k hk
      intro m a k2 hk2
      cases lookupEdition s a with
      | some er => simpa using insertIfAbsent_keys_mono hk2
      | none => simpa using hk2
    · intro k hk
      apply foldl_keys_mono _ _ ctx.entity_type_ids sg.entity_types k hk
      intro m a k2 hk2
      exact insertIfAbsent_keys_mono hk2

theorem assocReplace_keys {κ ω : Type} [DecidableEq κ] (m : List (κ × ω)) (k0 k : κ)
    (v : ω) :
    (k ∈ (assocReplace m k0 v).map Prod.fst) ↔ (k ∈ m.map Prod.fst ∨ k = k0) := by
  simp only [assocReplace]
  split
  · next hany =>
    have hkeys : (m.map (fun p => if p.1 = k0 then (k0, v) else p)).map Prod.fst =
        m.map Prod.fst := by
      rw [List.map_map]
      apply List.map_congr_left
      intro p _
      by_cases hpk : p.1 = k0
      · simp [hpk, Function.comp]
      · simp [hpk, Function.comp]
    rw [hkeys]
    constructor
    · exact Or.inl
    · intro h
      rcases h with h | rfl
      · exact h
      · rcases List.any_eq_true.mp hany with ⟨p, hp, hpk⟩
        simp only [decide_eq_true_eq] at hpk
        rw [← hpk]
        exact List.mem_map_of_mem Prod.fst hp
  · simp [List.mem_append]

theorem foldl_assocReplace_keys {κ ρ : Type} [DecidableEq κ] (key : ρ → κ)
    (l : List ρ) :
    ∀ (m : List (κ × ρ)) (k : κ),
      (k ∈ (l.foldl (fun m e => assocReplace m (key e) e) m).map Prod.fst) ↔
      (k ∈ m.map Prod.fst ∨ k ∈ l.map key) := by
  induction l with
  | nil => simp
  | cons e es ih =>
    intro m k
    simp only [List.foldl_cons]
    rw [ih, assocReplace_keys]
    simp only [List.map_cons, List.mem_cons]
    constructor
    · rintro ((h | h) | h)
      · exact Or.inl h
      · exact Or.inr (Or.inl h)
      · exact Or.inr (Or.inr h)
    · rintro (h | h | h)
      · exact Or.inl (Or.inl h)
      · exact Or.inl (Or.inr h)
      · exact Or.inr h

theorem mem_collectEntities_keys (roots : List EntityRecord) (axis : TimeAxis)
    (k : EntityVertexId) :
    (k ∈ (collectEntities roots axis).map Prod.fst) ↔
    (k ∈ roots.map (fun e => e.vertexId axis)) := by
  simp only [collectEntities]
  rw [foldl_assocReplace_keys (fun e => e.vertexId axis) roots []]
  simp

theorem mem_collectOntology_keys (roots : List OntologyRecord)
    (k : OntologyTypeVertexId) :
    (k ∈ (collectOntology roots).map Prod.fst) ↔
    (k ∈ roots.map (fun e => e.vertex_id)) := by
  simp only [collectOntology]
  rw [foldl_assocReplace_keys (fun e => e.vertex_id) roots []]
  simp

/-- C9: for every successful query, the roots recorded in the returned subgraph are
exactly the vertex ids of the payloads returned by root selection — as recorded keys
and as a set — and every root id is present as a vertex key in the returned subgraph;
for `get_entity` and `get_entity_type` alike. -/
theorem query_roots_cover :
    (∀ (s : StoreModel) (roots : List EntityRecord) (depths : GraphResolveDepths)
      (axes : QueryTemporalAxesM) (sg : SubgraphM),
      get_entity s roots depths axes = .ok sg →
      sg.roots = (collectEntities roots axes.variable_axis).map
        (fun p => .entityV p.1) ∧
      (∀ v, (GraphElementVertexId.entityV v ∈ sg.roots) ↔
        v ∈ roots.map (fun e => e.vertexId axes.variable_axis)) ∧
      (∀ g ∈ sg.roots, ∃ ve, g = .entityV ve ∧ ve ∈ sg.entities.map Prod.fst)) ∧
    (∀ (s : StoreModel) (roots : List OntologyRecord) (depths : GraphResolveDepths)
      (axes : QueryTemporalAxesM) (sg : SubgraphM),
      get_entity_type s roots depths axes = .ok sg →
      sg.roots = (collectOntology roots).map (fun p => .entityTypeV p.1) ∧
      (∀ v, (GraphElementVertexId.entityTypeV v ∈ sg.roots) ↔
        v ∈ roots.map (fun e => e.vertex_id)) ∧
      (∀ g ∈ sg.roots, ∃ ve, g = .entityTypeV ve ∧
        ve ∈ sg.entity_types.map Prod.fst)) := by
  constructor
  · intro s roots depths axes sg h
    simp only [get_entity] at h
    split at h
    · cases h
    · split at h
      · next ctx2 sgT hT =>
        split at h
        · next sg3 hL =>
          injection h with h2
          subst h2
          have hvd := vertexData_eq (traverse_entities_vertexData hT)
          have hload := load_vertices_ok hL
          have hroots : sg3.roots = (collectEntities roots axes.variable_axis).map
              (fun p => .entityV p.1) := by
            rw [hload.1, hvd.2.2.2.2]
          refine ⟨hroots, ?_, ?_⟩
          · intro v
            rw [hroots]
            have h1 : (GraphElementVertexId.entityV v ∈
                (collectEntities roots axes.variable_axis).map
                  (fun p => .entityV p.1)) ↔
                v ∈ (collectEntities roots axes.variable_axis).map Prod.fst := by
              simp only [List.mem_map, GraphElementVertexId.entityV.injEq]
            rw [h1, mem_collectEntities_keys]
          · intro g hg
            rw [hroots] at hg
            simp only [List.mem_map] at hg
            obtain ⟨p, hp, rfl⟩ := hg
            refine ⟨p.1, rfl, ?_⟩
            apply hload.2.1
            rw [hvd.1]
            exact List.mem_map_of_mem Prod.fst hp
        · cases h
      · cases h
      · cases h
      · cases h
  · intro s roots depths axes sg h
    simp only [get_entity_type] at h
    split at h
    · cases h
    · split at h
      · next ctx2 sgT hT =>
        split at h
        · next sg3 hL =>
          injection h with h2
          subst h2
          have hvd := vertexData_eq (traverse_entity_types_vertexData hT)
          have hload := load_vertices_ok hL
          have hroots : sg3.roots = (collectOntology roots).map
              (fun p => .entityTypeV p.1) := by
            rw [hload.1, hvd.2.2.2.2]
          refine ⟨hroots, ?_, ?_⟩
          · intro v
            rw [hroots]
            have h1 : (GraphElementVertexId.entityTypeV v ∈
                (collectOntology roots).map (fun p => .entityTypeV p.1)) ↔
                v ∈ (collectOntology roots).map Prod.fst := by
              simp only [List.mem_map, GraphElementVertexId.entityTypeV.injEq]
            rw [h1, mem_collectOntology_keys]
          · intro g hg
            rw [hroots] at hg
            simp only [List.mem_map] at hg
            obtain ⟨p, hp, rfl⟩ := hg
            refine ⟨p.1, rfl, ?_⟩
            apply hload.2.2
            rw [hvd.2.1]
            exact List.mem_map_of_mem Prod.fst hp
        · cases h
      · cases h
      · cases h
      · cases h

theorem query_roots_cover_witness :
    c9SubgraphW.roots = (collectEntities [rootW] axW.variable_axis).map
      (fun p => .entityV p.1) ∧
    (∀ v, (GraphElementVertexId.entityV v ∈ c9SubgraphW.roots) ↔
      v ∈ [rootW].map (fun e => e.vertexId axW.variable_axis)) ∧
    (∀ g ∈ c9SubgraphW.roots, ∃ ve, g = .entityV ve ∧
      ve ∈ c9SubgraphW.entities.map Prod.fst) :=
  query_roots_cover.1 emptyStore [rootW] GraphResolveDepths.zeroed axW c9SubgraphW
    (by decide)

theorem update_entity_never_entity_does_not_exist_witness :
    (update_entity ⟨.ok 2, .ok false, .error .otherFailure, .ok ()⟩ ⟨9, 9⟩ 1 false
      ⟨3, 1⟩).1 ≠ .error .entityDoesNotExist :=
  update_entity_never_entity_does_not_exist.1
    ⟨.ok 2, .ok false, .error .otherFailure, .ok ()⟩ ⟨9, 9⟩ 1 false ⟨3, 1⟩
